import Mathlib

/-!
Verification of the hierarchical agent execution engine
(`agent_framework`): a shallow embedding of the policies, memory views,
history filters, worker execution loop, script mode and manager phase
sequencing, together with theorems settling the frozen specification
claims.
-/

set_option maxRecDepth 10000

namespace AgentFramework

/-- Python-style JSON-ish values used for tool arguments, tool results and
message contents (`Dict[str, Any]` in the source). Dictionaries are
association lists in insertion order. -/
inductive JVal where
  | vnull : JVal
  | vbool : Bool → JVal
  | vint : Int → JVal
  | vstr : String → JVal
  | vlist : List JVal → JVal
  | vdict : List (String × JVal) → JVal
deriving Repr

namespace JVal

/-- Lookup in a Python dict (`d.get(k)`): first binding wins, `none` models
`None` for a missing key. -/
def get : JVal → String → Option JVal
  | vdict kvs, k => kvs.lookup k
  | _, _ => none

/-- Python truthiness of a value (`bool(v)`). -/
def truthy : JVal → Bool
  | vnull => false
  | vbool b => b
  | vint n => n != 0
  | vstr s => s ≠ ""
  | vlist xs => !xs.isEmpty
  | vdict kvs => !kvs.isEmpty

/-- Truthiness of `d.get(k)` (missing keys are falsy, like `None`). -/
def getTruthy (v : JVal) (k : String) : Bool :=
  match v.get k with
  | some x => x.truthy
  | none => false

/-- Does the value equal the Python literal `True` (`v is True`)? -/
def isTrue : JVal → Bool
  | vbool b => b
  | _ => false

/-- Is the value a Python dict? -/
def isDict : JVal → Bool
  | vdict _ => true
  | _ => false

end JVal

/-- Character-list containment helper for `pyIn`. -/
def containsSeq (needle : List Char) : List Char → Bool
  | [] => needle.isEmpty
  | c :: rest => needle.isPrefixOf (c :: rest) || containsSeq needle rest

/-- Substring test, modelling Python's `needle in hay` for strings. -/
def pyIn (needle hay : String) : Bool :=
  containsSeq needle.toList hay.toList

/-- Python `str.lower()` (ASCII case folding, as used by the policies; an
executable model of `String.toLower`). -/
def pyLower (s : String) : String := ⟨s.data.map Char.toLower⟩

/-- Python `lst[-n:]` slice semantics for an integer `n`: a positive `n`
keeps the last `n` elements, `n = 0` keeps the whole list (since `lst[-0:]`
is `lst[0:]`), and a negative `n` drops the first `-n` elements. -/
def takeLastPy {α : Type} (n : Int) (l : List α) : List α :=
  if 0 < n then l.drop (l.length - n.toNat)
  else if n = 0 then l
  else l.drop (-n).toNat

/-- Keep the last `n` elements of a list (used for `deque(maxlen=n)`). -/
def takeLast {α : Type} (n : Nat) (l : List α) : List α :=
  l.drop (l.length - n)

/-- Python `str.strip()`: drop leading and trailing whitespace (an
executable model of `String.trim`). -/
def pyStrip (s : String) : String :=
  ⟨((s.data.dropWhile Char.isWhitespace).reverse.dropWhile Char.isWhitespace).reverse⟩

/-- Python `a or b` on strings: the first operand if it is truthy
(non-empty), otherwise the second. -/
def pyOrStr (a b : String) : String := if a ≠ "" then a else b

/-- Python `a or b` where `a` is an optional string (e.g. `d.get(k)`):
a missing or empty first operand falls through to the second. -/
def pyOrOptStr (a b : Option String) : Option String :=
  match a with
  | some s => if s ≠ "" then some s else b
  | none => b

/-- Insertion step for sorting dict keys (`sorted` / `sort_keys=True`). -/
def insertByKey (p : String × JVal) : List (String × JVal) → List (String × JVal)
  | [] => [p]
  | q :: rest => if p.1 ≤ q.1 then p :: q :: rest else q :: insertByKey p rest

/-- Sort dict entries by key, modelling Python's `sorted(d.items())` for a
dict (whose keys are unique). -/
def sortByKey : List (String × JVal) → List (String × JVal)
  | [] => []
  | p :: rest => insertByKey p (sortByKey rest)

/-- Insertion step for sorting a list of strings. -/
def insertStr (s : String) : List String → List String
  | [] => [s]
  | q :: rest => if s ≤ q then s :: q :: rest else q :: insertStr s rest

/-- Sort a list of strings, modelling Python's `sorted(keys)`. -/
def sortStrings : List String → List String
  | [] => []
  | s :: rest => insertStr s (sortStrings rest)

mutual

/-- Python `repr` of a value (as used inside `str` of containers):
`None`/`True`/`False`, decimal integers, single-quoted strings, and
bracketed containers. -/
def pyRepr : JVal → String
  | .vnull => "None"
  | .vbool true => "True"
  | .vbool false => "False"
  | .vint n => toString n
  | .vstr s => "'" ++ s ++ "'"
  | .vlist xs => "[" ++ ", ".intercalate (pyReprList xs) ++ "]"
  | .vdict kvs => "\x7b" ++ ", ".intercalate (pyReprDict kvs) ++ "\x7d"

/-- Elementwise `repr` of list items. -/
def pyReprList : List JVal → List String
  | [] => []
  | v :: rest => pyRepr v :: pyReprList rest

/-- Entrywise `repr` of dict items (`'key': value`). -/
def pyReprDict : List (String × JVal) → List String
  | [] => []
  | (k, v) :: rest => ("'" ++ k ++ "': " ++ pyRepr v) :: pyReprDict rest

end

/-- Python `str(v)`: a string is returned as-is, everything else uses its
`repr` form. -/
def pyStr : JVal → String
  | .vstr s => s
  | v => pyRepr v

/-- Insertion step for sorting serialized dict entries by key. -/
def insertPair (p : String × String) : List (String × String) → List (String × String)
  | [] => [p]
  | q :: rest => if p.1 ≤ q.1 then p :: q :: rest else q :: insertPair p rest

/-- Sort serialized dict entries by key (`sort_keys=True`; dict keys are
unique, so sorting before or after serializing the values agrees). -/
def sortPairs : List (String × String) → List (String × String)
  | [] => []
  | p :: rest => insertPair p (sortPairs rest)

mutual

/-- Model of `json.dumps(v, sort_keys=True, default=str)`: dict keys are
sorted, default separators `", "` and `": "` are used, and strings are
double-quoted (escaping is not modelled; the signatures the engine builds
use plain identifiers). -/
def jsonDumps : JVal → String
  | .vnull => "null"
  | .vbool true => "true"
  | .vbool false => "false"
  | .vint n => toString n
  | .vstr s => "\"" ++ s ++ "\""
  | .vlist xs => "[" ++ ", ".intercalate (jsonDumpsList xs) ++ "]"
  | .vdict kvs =>
      "\x7b" ++
        ", ".intercalate
          ((sortPairs (jsonDumpsEntries kvs)).map
            (fun p => "\"" ++ p.1 ++ "\": " ++ p.2)) ++ "\x7d"

/-- Serialize the items of a JSON list. -/
def jsonDumpsList : List JVal → List String
  | [] => []
  | v :: rest => jsonDumps v :: jsonDumpsList rest

/-- Serialize the items of a JSON dict to (key, serialized value) pairs. -/
def jsonDumpsEntries : List (String × JVal) → List (String × String)
  | [] => []
  | (k, v) :: rest => (k, jsonDumps v) :: jsonDumpsEntries rest

end

/-- Two-space indentation prefix at nesting depth `n` (`indent=2`). -/
def jsonIndent (n : Nat) : String := ⟨List.replicate (2 * n) ' '⟩

/-- Python string slice `s[:n]`: the first `n` characters. -/
def pyTake (n : Nat) (s : String) : String := ⟨s.data.take n⟩

mutual

/-- Model of `json.dumps(v, indent=2)`: dict keys in insertion order, the
item separator is `","` followed by a newline and the next item's
indentation, the key separator is `": "`, a container opens its bracket
in place and closes it on its own line at the enclosing depth, and empty
containers print on one line (escaping is not modelled, as in
`jsonDumps`). -/
def jsonDumpsIndent : Nat → JVal → String
  | _, .vnull => "null"
  | _, .vbool true => "true"
  | _, .vbool false => "false"
  | _, .vint n => toString n
  | _, .vstr s => "\"" ++ s ++ "\""
  | _, .vlist [] => "[]"
  | lvl, .vlist (x :: xs) =>
      "[\n" ++
        ",\n".intercalate
          ((jsonDumpsIndentList (lvl + 1) (x :: xs)).map
            (fun s => jsonIndent (lvl + 1) ++ s)) ++
        "\n" ++ jsonIndent lvl ++ "]"
  | _, .vdict [] => "\x7b\x7d"
  | lvl, .vdict (kv :: kvs) =>
      "\x7b\n" ++
        ",\n".intercalate
          ((jsonDumpsIndentEntries (lvl + 1) (kv :: kvs)).map
            (fun p => jsonIndent (lvl + 1) ++ "\"" ++ p.1 ++ "\": " ++ p.2)) ++
        "\n" ++ jsonIndent lvl ++ "\x7d"

/-- Serialize the items of a JSON list at the given depth. -/
def jsonDumpsIndentList : Nat → List JVal → List String
  | _, [] => []
  | lvl, v :: rest => jsonDumpsIndent lvl v :: jsonDumpsIndentList lvl rest

/-- Serialize the items of a JSON dict at the given depth to
(key, serialized value) pairs. -/
def jsonDumpsIndentEntries : Nat → List (String × JVal) → List (String × String)
  | _, [] => []
  | lvl, (k, v) :: rest => (k, jsonDumpsIndent lvl v) :: jsonDumpsIndentEntries lvl rest

end

/-- Memory entry: the shallow embedding of the message dicts appended by
agents. `type` is always written by the engine; optional keys of the
source dicts are optional fields here and `content`/`args` default to
null for entries that do not carry them. -/
structure Msg where
  type : String
  content : JVal := JVal.vnull
  tool : Option String := none
  args : JVal := JVal.vnull
  phase_id : Option Int := none
  step : Option String := none
  script : Bool := false
  worker : Option String := none
  task : Option String := none
  from_worker : Option String := none
  summary : Option String := none
deriving Repr

/-- Constant from `constants.py`. -/
def USER_MESSAGE : String := "user_message"

/-- Constant from `constants.py`. -/
def ASSISTANT_MESSAGE : String := "assistant_message"

/-- Constant from `constants.py`. -/
def TASK : String := "task"

/-- Constant from `constants.py`. -/
def ACTION : String := "action"

/-- Constant from `constants.py`. -/
def OBSERVATION : String := "observation"

/-- Constant from `constants.py`. -/
def ERROR : String := "error"

/-- Constant from `constants.py`. -/
def FINAL : String := "final"

/-- Constant from `constants.py`. -/
def SYNTHESIS : String := "synthesis"

/-- Constant from `constants.py`. -/
def GLOBAL_OBSERVATION : String := "global_observation"

/-- Constant from `constants.py`: conversation-layer types. -/
def CONVERSATION_TYPES : List String := [USER_MESSAGE, ASSISTANT_MESSAGE]

/-- Constant from `constants.py`: execution-trace types. -/
def EXECUTION_TRACE_TYPES : List String := [TASK, ACTION, OBSERVATION, ERROR]

/-! ### Shared state store and memory views (`components/memory.py`) -/

/-- Conversation turn as stored by `append_conversation_turn`: a
`\x7brole, content, timestamp\x7d` dict (the timestamp plays no role in
the claims and is not modelled). -/
structure ConvTurn where
  role : String
  content : String
deriving Repr, DecidableEq

/-- State of the process-wide `SharedStateStore`: three maps keyed by
namespace (association lists; a missing namespace denotes the empty
feed, matching `defaultdict(list)`). -/
structure SharedStateStore where
  conversation_feeds : List (String × List ConvTurn) := []
  global_feeds : List (String × List Msg) := []
  agent_feeds : List (String × List (String × List Msg)) := []
deriving Repr

namespace SharedStateStore

/-- `SharedStateStore.list_conversation`. -/
def list_conversation (s : SharedStateStore) (ns : String) : List ConvTurn :=
  (s.conversation_feeds.lookup ns).getD []

/-- `SharedStateStore.list_global_updates`. -/
def list_global_updates (s : SharedStateStore) (ns : String) : List Msg :=
  (s.global_feeds.lookup ns).getD []

/-- `SharedStateStore.list_agent_msgs`. -/
def list_agent_msgs (s : SharedStateStore) (ns agent_key : String) : List Msg :=
  (((s.agent_feeds.lookup ns).getD []).lookup agent_key).getD []

/-- `SharedStateStore.list_team_msgs`: concatenation of the agent feeds in
argument order. -/
def list_team_msgs (s : SharedStateStore) (ns : String) (agent_keys : List String) : List Msg :=
  (agent_keys.map (s.list_agent_msgs ns)).flatten

end SharedStateStore

/-- Translation of conversation turns into memory rows, as performed inside
`SharedInMemoryMemory.get_history`: `user` turns become `user_message`
entries, `assistant` turns become `assistant_message` entries and other
roles are dropped. -/
def convTranslate : List ConvTurn → List Msg
  | [] => []
  | t :: rest =>
      if t.role == "user" then
        { type := USER_MESSAGE, content := .vstr t.content } :: convTranslate rest
      else if t.role == "assistant" then
        { type := ASSISTANT_MESSAGE, content := .vstr t.content } :: convTranslate rest
      else convTranslate rest

/-- `SharedInMemoryMemory.get_history`: translated conversation, then the
agent's own feed, then the namespace's global feed. -/
def SharedInMemoryMemory.get_history
    (s : SharedStateStore) (ns agent_key : String) : List Msg :=
  convTranslate (s.list_conversation ns) ++
    s.list_agent_msgs ns agent_key ++ s.list_global_updates ns

/-- `HierarchicalSharedMemory.get_history`: the manager's own feed, then
the concatenated subordinate feeds, then the global feed (the source
override does not read the conversation feed). -/
def HierarchicalSharedMemory.get_history
    (s : SharedStateStore) (ns agent_key : String) (subordinates : List String) : List Msg :=
  s.list_agent_msgs ns agent_key ++
    s.list_team_msgs ns subordinates ++ s.list_global_updates ns

/-- Modelled from the spec (for comparison only): the history a
hierarchical-manager view should return according to the specification —
translated conversation feed, then the manager's own feed, then the
subordinate feeds, then the global feed. -/
def specHierarchicalHistory
    (s : SharedStateStore) (ns agent_key : String) (subordinates : List String) : List Msg :=
  convTranslate (s.list_conversation ns) ++
    (s.list_agent_msgs ns agent_key ++
      (s.list_team_msgs ns subordinates ++ s.list_global_updates ns))

/-! ### Message-store-backed memory (`components/message_store_memory.py`) -/

/-- Backing `BaseMessageStore` contents, keyed by location: conversation
messages, per-agent messages, global messages. -/
structure MessageStore where
  conversation_msgs : List (String × List Msg) := []
  agent_msgs : List (String × List (String × List Msg)) := []
  global_msgs : List (String × List Msg) := []
deriving Repr

namespace MessageStore

/-- `get_conversation_messages(location)`. -/
def get_conversation_messages (s : MessageStore) (location : String) : List Msg :=
  (s.conversation_msgs.lookup location).getD []

/-- `get_agent_messages(location, agent_key)`. -/
def get_agent_messages (s : MessageStore) (location agent_key : String) : List Msg :=
  (((s.agent_msgs.lookup location).getD []).lookup agent_key).getD []

/-- `get_global_messages(location)`. -/
def get_global_messages (s : MessageStore) (location : String) : List Msg :=
  (s.global_msgs.lookup location).getD []

end MessageStore

/-- A `MessageStoreMemory` instance: the backing store plus the location
and agent key it was constructed with. -/
structure MessageStoreMemory where
  message_store : MessageStore
  location : String
  agent_key : String
deriving Repr

namespace MessageStoreMemory

/-- `MessageStoreMemory.add`: a no-op — the body of the source method is
`pass`, so the instance (including its backing store) is unchanged. -/
def add (m : MessageStoreMemory) (_message : Msg) : MessageStoreMemory := m

/-- `MessageStoreMemory.get_history`: conversation messages, then the
agent's execution traces, then global messages, read from the store. -/
def get_history (m : MessageStoreMemory) : List Msg :=
  m.message_store.get_conversation_messages m.location ++
    m.message_store.get_agent_messages m.location m.agent_key ++
    m.message_store.get_global_messages m.location

end MessageStoreMemory

/-! ### History filters (`policies/history_filters.py`) -/

/-- Filter context passed to `filter_for_prompt` (`context.get(...)`
lookups; a `none` field models a missing key). -/
structure FilterCtx where
  max_conversation_turns : Option Int := none
  phase_id : Option Int := none
  previous_phase_id : Option Int := none
deriving Repr

/-- Configuration of `OrchestratorHistoryFilter` (constructor default 8). -/
structure OrchestratorHistoryFilter where
  max_conversation_turns : Int := 8
deriving Repr

/-- `OrchestratorHistoryFilter.filter_for_prompt`: keep only conversation
turns, limited to the last N via the Python slice `conversation[-N:]`. -/
def OrchestratorHistoryFilter.filter_for_prompt
    (f : OrchestratorHistoryFilter) (history : List Msg) (context : FilterCtx) : List Msg :=
  let max_turns := context.max_conversation_turns.getD f.max_conversation_turns
  takeLastPy max_turns (history.filter (fun e => CONVERSATION_TYPES.contains e.type))

/-- `ManagerHistoryFilter.filter_for_prompt`: synthesis entries of the
previous phase when phase context is present, otherwise empty. -/
def ManagerHistoryFilter.filter_for_prompt
    (history : List Msg) (context : FilterCtx) : List Msg :=
  match context.previous_phase_id with
  | some p =>
      history.filter (fun e => e.type == SYNTHESIS && e.phase_id == some p)
  | none =>
      match context.phase_id with
      | some pid =>
          if pid > 0 then
            history.filter (fun e => e.type == SYNTHESIS && e.phase_id == some (pid - 1))
          else []
      | none => []

/-- `HistoryFilter._find_last_task_marker`: index of the last `task`
entry, `none` when absent (the source scans from the end and returns
`-1`). -/
def find_last_task_marker : List Msg → Option Nat
  | [] => none
  | m :: rest =>
      match find_last_task_marker rest with
      | some i => some (i + 1)
      | none => if m.type == TASK then some 0 else none

/-- `WorkerHistoryFilter.filter_for_prompt`: entries after the last `task`
marker whose type is an execution-trace type or `global_observation`;
empty when there is no task marker. -/
def WorkerHistoryFilter.filter_for_prompt
    (history : List Msg) (_context : FilterCtx) : List Msg :=
  match find_last_task_marker history with
  | none => []
  | some i =>
      (history.drop (i + 1)).filter
        (fun e => (EXECUTION_TRACE_TYPES ++ [GLOBAL_OBSERVATION]).contains e.type)

/-- `DefaultHistoryFilter.filter_for_prompt`: the identity. -/
def DefaultHistoryFilter.filter_for_prompt
    (history : List Msg) (_context : FilterCtx) : List Msg :=
  history

/-! ### Core data types (`base.py`) -/

/-- `Action`: a request to invoke a tool. -/
structure ActionV where
  tool_name : String
  tool_args : JVal
deriving Repr

/-- `FinalResponse`: the structured result model (`model_dump()` produces
the corresponding dict). -/
structure FinalResponseV where
  operation : String
  payload : JVal
  human_readable_summary : String
deriving Repr

/-- Serialization of `FinalResponse.model_dump()` as a dict value. -/
def FinalResponseV.dump (fr : FinalResponseV) : JVal :=
  .vdict [("operation", .vstr fr.operation), ("payload", fr.payload),
          ("human_readable_summary", .vstr fr.human_readable_summary)]

/-- Planner outcome: `Action | [Action] | FinalResponse`, with `other` for
unrecognized planner outputs (such as `None`). -/
inductive PlanOutcome where
  | final (r : FinalResponseV)
  | act (a : ActionV)
  | acts (l : List ActionV)
  | other (v : JVal)
deriving Repr

/-! ### Job store (`state/job_store.py` interface) and request context -/

/-- Executed-action record of the job store: the set of
`(job_id, signature)` pairs stored by `add_executed_action`. -/
structure JobStore where
  executed_actions : List (String × String) := []
deriving Repr, DecidableEq

/-- `has_executed_action(job_id, signature)`. -/
def JobStore.has_executed_action (js : JobStore) (job_id sig : String) : Bool :=
  js.executed_actions.contains (job_id, sig)

/-- `add_executed_action(job_id, signature)`. -/
def JobStore.add_executed_action (js : JobStore) (job_id sig : String) : JobStore :=
  { js with executed_actions := js.executed_actions ++ [(job_id, sig)] }

/-- Executed-action signature `"\x7btool\x7d:\x7bjson.dumps(args, sort_keys=True, default=str)\x7d"`
as built in `DefaultHITLPolicy.requires_approval` and in
`Agent._execute_actions`. -/
def actionSignature (tool_name : String) (tool_args : JVal) : String :=
  tool_name ++ ":" ++ jsonDumps tool_args

/-- Policy context dict built in `Agent.run`: task, agent name, the job id
(the value of `context.get("job_id") or context.get("JOB_ID")`, so
`some ""` is possible and falsy) and the approvals mapping. `last_tool` is
the extra key added for the checkpoint-policy call. -/
structure PolicyCtx where
  task : String := ""
  agent_name : String := ""
  job_id : Option String := none
  approvals : List (String × JVal) := []
  last_tool : Option String := none
deriving Repr

/-! ### Default policies (`policies/default.py`) -/

/-- Configuration of `DefaultCompletionDetector`. -/
structure DefaultCompletionDetector where
  indicators : List String := ["completed", "success", "done", "finished", "task complete"]
  check_final_response : Bool := true
  check_operation_types : List String := ["display_message", "model_ops", "display_table"]
  check_response_validation : Bool := true
  check_history_depth : Int := 10
deriving Repr

/-- String read of `d.get(k, "")` followed by `.lower()`: returns the
lower-cased string when the key holds a string, `""` otherwise. -/
def getStrLower (v : JVal) (k : String) : String :=
  match v.get k with
  | some (.vstr s) => pyLower s
  | _ => ""

/-- `DefaultCompletionDetector._get_current_turn_history`: entries after
the last `task` entry; the whole history when there is none. -/
def DefaultCompletionDetector.get_current_turn_history
    (history : List Msg) : List Msg :=
  match find_last_task_marker history with
  | none => history
  | some i => history.drop (i + 1)

/-- Per-entry check of the history scan inside
`DefaultCompletionDetector.is_complete`. -/
def DefaultCompletionDetector.entry_signals
    (d : DefaultCompletionDetector) (entry : Msg) : Bool :=
  (entry.type == ACTION && entry.tool == some "complete_task") ||
  (entry.type == FINAL &&
    d.indicators.any (fun ind => pyIn ind (pyLower (pyStr entry.content)))) ||
  (entry.type == OBSERVATION &&
    ((entry.content.isDict &&
        ((entry.content.get "completed").getD .vnull).isTrue) ||
      d.indicators.any (fun ind => pyIn ind (pyLower (pyStr entry.content)))))

/-- `DefaultCompletionDetector.is_complete`: result-structure checks, then
a scan of the current turn's last `check_history_depth` entries. -/
def DefaultCompletionDetector.is_complete
    (d : DefaultCompletionDetector) (result : JVal) (history : List Msg)
    (_context : PolicyCtx) : Bool :=
  let resultCheck :=
    result.isDict &&
      (((result.get "completed").getD .vnull).isTrue ||
        (d.check_response_validation &&
          ((((result.get "response_validation").getD (.vdict [])).get "complete").getD .vnull).isTrue) ||
        ((match result.get "operation" with
          | some (.vstr op) => d.check_operation_types.contains op
          | _ => false) &&
          d.indicators.any (fun ind => pyIn ind (getStrLower result "human_readable_summary"))) ||
        d.indicators.any (fun ind =>
          pyIn ind (getStrLower result "message") ||
          pyIn ind (getStrLower result "summary") ||
          pyIn ind (getStrLower result "final_result")))
  let turn := DefaultCompletionDetector.get_current_turn_history history
  resultCheck || (takeLastPy d.check_history_depth turn).any d.entry_signals

/-- Configuration of `DefaultTerminationPolicy`; `completion_detector`
defaults to a default-configured detector. -/
structure DefaultTerminationPolicy where
  max_iterations : Option Int := none
  require_terminal_tool : Bool := false
  terminal_tools : List String := []
  check_completion : Bool := true
  completion_detector : DefaultCompletionDetector := {}
  on_max_iterations : String := "error"
deriving Repr

/-- `DefaultTerminationPolicy.should_terminate`: iteration cap (guarded by
the Python truthiness of `max_iterations`, so a configured `0` disables
the check), `FinalResponse` outcomes, optional terminal tools, and — only
when the planner returned neither actions nor a final response —
completion detection on the last observation. -/
def DefaultTerminationPolicy.should_terminate
    (p : DefaultTerminationPolicy) (iteration : Int) (plan_outcome : PlanOutcome)
    (history : List Msg) (context : PolicyCtx) : Bool :=
  let maxTruthy := match p.max_iterations with
    | some m => m != 0
    | none => false
  if maxTruthy && iteration > p.max_iterations.getD 0 then true
  else match plan_outcome with
    | .final _ => true
    | .act a =>
        p.require_terminal_tool && p.terminal_tools.contains a.tool_name
    | .acts l =>
        p.require_terminal_tool && l.any (fun a => p.terminal_tools.contains a.tool_name)
    | .other _ =>
        if p.check_completion then
          match (history.reverse.find? (fun h => h.type == OBSERVATION)).map (·.content) with
          | some lastObs =>
              lastObs.truthy && p.completion_detector.is_complete lastObs history context
          | none => false
        else false

/-- Configuration of `DefaultHITLPolicy` (the constructor lower-cases
`scope` and defaults `write_tools` to the enumerated write-tool set). -/
structure DefaultHITLPolicy where
  enabled : Bool := false
  scope : String := "writes"
  write_tools : List String :=
    ["add_table", "add_column", "add_relationship", "update_relationship",
     "rename_column", "add_measure", "remove_column", "remove_relationship",
     "remove_measure", "update_measure", "update_partition_source", "update_sql_query"]
deriving Repr

/-- `DefaultHITLPolicy.requires_approval`: disabled → false; already
approved → false; executed-signature bypass (only reached when the job id
is truthy, i.e. a non-empty string); otherwise decided by scope. -/
def DefaultHITLPolicy.requires_approval
    (p : DefaultHITLPolicy) (store : JobStore) (tool_name : String)
    (tool_args : JVal) (context : PolicyCtx) : Bool :=
  if !p.enabled then false
  else if ((context.approvals.lookup tool_name).getD .vnull).truthy then false
  else
    let bypass := match context.job_id with
      | some j =>
          if j ≠ "" then
            store.has_executed_action j (actionSignature tool_name tool_args)
          else false
      | none => false
    if bypass then false
    else if p.scope == "all" then true
    else if p.scope == "writes" then p.write_tools.contains tool_name
    else false

/-- `DefaultHITLPolicy.create_approval_request`: the `await_approval`
payload dict. -/
def DefaultHITLPolicy.create_approval_request
    (p : DefaultHITLPolicy) (tool_name : String) (tool_args : JVal)
    (_context : PolicyCtx) : JVal :=
  .vdict
    [("operation", .vstr "await_approval"),
     ("payload", .vdict
        [("await_approval", .vbool true),
         ("tool", .vstr tool_name),
         ("args", tool_args),
         ("message", .vstr ("Approval required to execute tool '" ++ tool_name ++ "'.")),
         ("reason", .vstr ("HITL enabled (scope=" ++ p.scope ++ ")"))]),
     ("human_readable_summary", .vstr ("Approval required: " ++ tool_name))]

/-! ### Worker agent execution loop (`core/agent.py`) -/

/-- A registered tool: `name`, argument validation
(`args_schema.model_validate` followed by `model_dump`; `.error` carries
the `ValidationError` text; a schema-less tool validates as the identity)
and `execute` (`.error` models the tool raising, carrying `str(e)`; the
exception class name is abstracted as `Exception`). -/
structure ToolV where
  name : String
  validate : JVal → Except String JVal
  execute : JVal → Except String JVal

/-- One element of the `_execute_actions` result list: either an
`Exception` object (carrying `str(e)`) or a value. -/
inductive ExecResult where
  | exn (msg : String)
  | val (v : JVal)
deriving Repr

/-- Is the result an `Exception` object? -/
def ExecResult.isExn : ExecResult → Bool
  | .exn _ => true
  | .val _ => false

/-- Value of a non-exception result (`vnull` fallback is unreachable where
this is used). -/
def ExecResult.toVal : ExecResult → JVal
  | .exn _ => .vnull
  | .val v => v

/-- Events published on the event bus by the worker agent (the payload is
reduced to the fields the claims constrain). -/
inductive Ev where
  | agent_start
  | action_planned (tool : String)
  | worker_tool_call (tool : String)
  | worker_tool_result (tool : String) (success : Bool)
  | action_executed (tool : String)
  | policy_denied (tool : String) (reason : String)
  | error_ev (msg : String)
  | agent_end (status : String)
deriving Repr, DecidableEq

/-- Is the value the Python literal `False`? -/
def JVal.isFalse : JVal → Bool
  | .vbool false => true
  | _ => false

/-- String read of `d.get(k, default)`: the value when it is a string,
the default otherwise. -/
def getStrD (v : JVal) (k d : String) : String :=
  match v.get k with
  | some (.vstr s) => s
  | _ => d

/-- `Agent._is_success_result`. -/
def isSuccessResult (v : JVal) : Bool :=
  !(v.isDict &&
    (v.getTruthy "error" || ((v.get "success").getD .vnull).isFalse ||
      v.getTruthy "error_message" ||
      (let p := (v.get "payload").getD .vnull
       p.isDict && (p.getTruthy "error" || ((p.get "success").getD .vnull).isFalse))))

/-- Error test used before recording an executed-action signature
(`is_error` in `Agent._execute_actions`). -/
def resultIsError (v : JVal) : Bool :=
  v.isDict &&
    (v.getTruthy "error" || ((v.get "success").getD .vnull).isFalse ||
      v.getTruthy "error_message")

/-- `_infer_status` from `core/event_payloads.py` (the default-status
inference for `agent_end` / `manager_end` events). -/
def inferStatus (result : JVal) : String :=
  if result.isDict then
    if getStrD result "operation" "" == "await_approval" ||
        ((result.get "pending").getD .vnull).isTrue then "pending"
    else if result.getTruthy "error" || ((result.get "success").getD .vnull).isFalse ||
        result.getTruthy "error_message" then "error"
    else
      let p := (result.get "payload").getD .vnull
      if p.isDict && (p.getTruthy "error" || ((p.get "success").getD .vnull).isFalse) then "error"
      else "success"
  else "success"

/-- Structured error payload built when a tool raises
(`error_payload` in `Agent._execute_actions.execute_tool`). -/
def errorPayload (tool msg : String) : JVal :=
  .vdict
    [("success", .vbool false), ("error", .vbool true),
     ("error_message", .vstr msg), ("error_type", .vstr "Exception"),
     ("tool", .vstr tool), ("message", .vstr ("❌ ERROR: " ++ msg))]

mutual

/-- `make_hashable` on tool args as used for the loop-prevention action
signature: dict items are recursively canonicalized and key-sorted. -/
def canonArgs : JVal → JVal
  | .vdict kvs => .vdict (sortByKey (canonEntries kvs))
  | .vlist xs => .vlist (canonList xs)
  | v => v

/-- Canonicalize list items for `canonArgs`. -/
def canonList : List JVal → List JVal
  | [] => []
  | v :: rest => canonArgs v :: canonList rest

/-- Canonicalize dict entries for `canonArgs`. -/
def canonEntries : List (String × JVal) → List (String × JVal)
  | [] => []
  | (k, v) :: rest => (k, canonArgs v) :: canonEntries rest

end

/-- Policy strategy objects held by the agent (duck-typed in the source;
arbitrary functions here, so theorems quantify over every policy
implementation). `action_window`/`observation_window` are the deque
bounds read off the loop-prevention policy. -/
structure WorkerPolicies where
  should_terminate : Int → PlanOutcome → List Msg → PolicyCtx → Bool
  is_complete : JVal → List Msg → PolicyCtx → Bool
  detect_stagnation :
    List (List (String × JVal)) → List String → PolicyCtx → Option String
  requires_approval : String → JVal → PolicyCtx → Bool
  create_approval_request : String → JVal → PolicyCtx → JVal
  should_checkpoint : JVal → Int → PolicyCtx → Bool
  create_checkpoint_response : JVal → PolicyCtx → FinalResponseV
  action_window : Nat
  observation_window : Nat

/-- Converters of `utils/result_formatter.py`, treated as opaque
collaborators: the verified claims do not depend on their outputs.
`convert_any_tool_result` returns `none` when the source function would
raise (the loop catches that and falls through). -/
structure ResultConverters where
  should_convert_to_display_table : String → Bool
  should_convert_to_display_message : String → Bool
  convert_list_tool_result_to_display_table : String → JVal → JVal → FinalResponseV
  convert_get_tool_result_to_message : String → JVal → JVal → FinalResponseV
  convert_any_tool_result : String → JVal → JVal → Option FinalResponseV

/-- A worker agent plus the fixed per-run inputs: tool registry, planner,
policies, converters, the central policy engine
(`PolicyEngine.evaluate`; `some msg` denies) and the policy context
built at the start of `run`. -/
structure AgentCfg where
  task : String
  tools : List (String × ToolV)
  plan : String → List Msg → PlanOutcome
  pol : WorkerPolicies
  conv : ResultConverters
  policyEval : String → JVal → Option String
  ctx : PolicyCtx

/-- Mutable state threaded through the run: the agent's memory feed, the
iteration counter, the loop-prevention deques, the published events, the
log of actual `tool.execute` invocations, and the job store. -/
structure RunSt where
  memory : List Msg := []
  iteration : Int := 0
  actionHist : List (List (String × JVal)) := []
  obsHist : List String := []
  events : List Ev := []
  execLog : List (String × JVal) := []
  store : JobStore := {}

/-- A finished run: the returned `FinalResponse` dict and the final
state. -/
structure RunDone where
  response : FinalResponseV
  st : RunSt

/-- Append a memory entry (`self.memory.add`). -/
def addMsg (st : RunSt) (m : Msg) : RunSt :=
  { st with memory := st.memory ++ [m] }

/-- Append one published event. -/
def pushEv (st : RunSt) (e : Ev) : RunSt :=
  { st with events := st.events ++ [e] }

/-- Truthiness of the job id in the policy context (`if job_id:`). -/
def jobIdTruthy (ctx : PolicyCtx) : Bool :=
  match ctx.job_id with
  | some j => j ≠ ""
  | none => false

/-- Sorted, comma-joined tool names (`", ".join(sorted(self.tools.keys()))`). -/
def availableTools (cfg : AgentCfg) : String :=
  ", ".intercalate (sortStrings (cfg.tools.map (·.1)))

/-- A prepared tool call: an `Exception` placed in `tool_calls` for a
missing tool or failed validation, or the tool plus validated kwargs. -/
inductive ToolCall where
  | exn (msg : String)
  | call (t : ToolV) (kwargs : JVal)

/-- Tool resolution and argument validation for one action (the first
loop of `Agent._execute_actions`). -/
def prepareToolCall (cfg : AgentCfg) (a : ActionV) : ToolCall :=
  match cfg.tools.lookup a.tool_name with
  | none => .exn ("Tool not found: " ++ a.tool_name ++ ". Available: [" ++ availableTools cfg ++ "]")
  | some t =>
      match t.validate a.tool_args with
      | .error ve => .exn ("Validation failed for " ++ t.name ++ ": " ++ ve)
      | .ok kw => .call t kw

/-- Core of `execute_tool` for one action: the result, the events
published, the actual `tool.execute` invocations, and the signature to
record in the job store (present only for a successful execution with a
truthy job id). -/
def execCore (cfg : AgentCfg) (a : ActionV) :
    ExecResult × List Ev × List (String × JVal) × Option String :=
  match prepareToolCall cfg a with
  | .exn m => (.exn m, [], [], none)
  | .call t kw =>
      match cfg.policyEval a.tool_name kw with
      | some deny =>
          (.exn ("Policy denied for " ++ t.name ++ ": " ++ deny),
           [.worker_tool_call t.name, .policy_denied t.name deny,
            .worker_tool_result t.name false],
           [], none)
      | none =>
          match t.execute kw with
          | .ok result =>
              (.val result,
               [.worker_tool_call t.name,
                .worker_tool_result t.name (isSuccessResult result),
                .action_executed t.name],
               [(t.name, kw)],
               if !resultIsError result && jobIdTruthy cfg.ctx then
                 some (actionSignature t.name kw)
               else none)
          | .error emsg =>
              (.val (errorPayload t.name emsg),
               [.worker_tool_call t.name,
                .error_ev ("Tool " ++ t.name ++ " failed: " ++ emsg),
                .worker_tool_result t.name false],
               [(t.name, kw)], none)

/-- `Agent._execute_actions`: every action is prepared and executed;
results are returned in action order (the source gathers them
concurrently and zips by index). -/
def executeActions (cfg : AgentCfg) (st : RunSt) :
    List ActionV → List ExecResult × RunSt
  | [] => ([], st)
  | a :: rest =>
      let (r, evs, log, sig) := execCore cfg a
      let st :=
        { st with
          events := st.events ++ evs,
          execLog := st.execLog ++ log,
          store :=
            match sig with
            | some s => st.store.add_executed_action ((cfg.ctx.job_id).getD "") s
            | none => st.store }
      let (rs, st') := executeActions cfg st rest
      (r :: rs, st')

/-- `Agent._handle_final_response`: append a `final` entry, publish
`agent_end` (status inferred from the result), return the dump. -/
def handleFinal (st : RunSt) (fr : FinalResponseV) : RunDone :=
  let st := addMsg st { type := FINAL, content := .vstr fr.human_readable_summary }
  ⟨fr, pushEv st (.agent_end (inferStatus fr.dump))⟩

/-- Extraction of a `FinalResponse` from a dict with the
`operation`/`payload` structure (shared by the `complete_task` paths). -/
def frFromDict (c : JVal) : FinalResponseV :=
  { operation := getStrD c "operation" "display_message",
    payload := (c.get "payload").getD (.vdict []),
    human_readable_summary :=
      pyOrStr (getStrD c "human_readable_summary" "") (getStrD c "summary" "Task completed.") }

/-- `Agent._create_completion_response`. -/
def createCompletionResponse (st : RunSt) (message : String) (result : Option JVal) : RunDone :=
  let fr :=
    match result with
    | some r =>
        if r.truthy && r.isDict then
          { operation := getStrD r "operation" "display_message",
            payload := (r.get "payload").getD (.vdict [("message", .vstr message)]),
            human_readable_summary := getStrD r "human_readable_summary" message }
        else
          { operation := "display_message",
            payload := .vdict [("message", .vstr message)],
            human_readable_summary := message }
    | none =>
        { operation := "display_message",
          payload := .vdict [("message", .vstr message)],
          human_readable_summary := message }
  handleFinal st fr

/-- `Agent._create_error_response`: append an `error` entry, publish
`agent_end` with status `error`, return the error response. -/
def createErrorResponse (st : RunSt) (message : String) (stagnation : Bool) : RunDone :=
  let st := addMsg st { type := ERROR, content := .vstr message }
  let fr : FinalResponseV :=
    { operation := "display_message",
      payload := .vdict
        [("message", .vstr message), ("error", .vbool true),
         ("stagnation", .vbool stagnation)],
      human_readable_summary := message }
  ⟨fr, pushEv st (.agent_end "error")⟩

/-- Error message aggregated from the `Exception` results
(`f"Errors during execution: ..."`). -/
def execErrorsMessage (results : List ExecResult) : String :=
  "Errors during execution: " ++
    "; ".intercalate (results.filterMap (fun r =>
      match r with
      | .exn m => some m
      | .val _ => none))

/-- `Agent._handle_execution_errors`: publish an `error` event, append an
`error` entry, then return via `_create_error_response` (which appends a
second `error` entry). -/
def handleExecutionErrors (st : RunSt) (results : List ExecResult) : RunDone :=
  let msg := execErrorsMessage results
  let st := pushEv st (.error_ev msg)
  let st := addMsg st { type := ERROR, content := .vstr msg }
  createErrorResponse st msg false

/-- Conversion of an approval-request dict into a `FinalResponse`
(`Agent._handle_approval_request`). -/
def approvalResponse (request : JVal) : FinalResponseV :=
  if request.isDict && (request.get "operation").isSome then
    { operation := getStrD request "operation" "",
      payload := (request.get "payload").getD request,
      human_readable_summary := getStrD request "human_readable_summary" "Awaiting approval" }
  else
    { operation := "await_approval",
      payload := request,
      human_readable_summary := getStrD request "message" "Awaiting approval" }

/-- `Agent._handle_approval_request`: convert the request dict into a
`FinalResponse` and publish `agent_end` with status `pending`; no memory
entry is appended. -/
def handleApproval (st : RunSt) (request : JVal) : RunDone :=
  ⟨approvalResponse request, pushEv st (.agent_end "pending")⟩

/-- `Agent._handle_checkpoint`: publish `agent_end` (inferred status) and
return the checkpoint response; no memory entry is appended. -/
def handleCheckpoint (st : RunSt) (fr : FinalResponseV) : RunDone :=
  ⟨fr, pushEv st (.agent_end (inferStatus fr.dump))⟩

/-- Pre-planning `complete_task` guard at the top of the loop (skipped on
iteration 1): when the most recent `action` entry is `complete_task` and
the most recent `observation` carries a completed dict with an
`operation`/`payload` structure, return that final response. -/
def guardA (st : RunSt) : Option FinalResponseV :=
  if st.iteration > 1 && !st.memory.isEmpty then
    match st.memory.reverse.find? (fun e => e.type == ACTION) with
    | some lastAction =>
        if lastAction.tool == some "complete_task" then
          match st.memory.reverse.find? (fun e => e.type == OBSERVATION) with
          | some lastObs =>
              let c := lastObs.content
              if c.isDict && ((c.get "completed").getD .vnull).isTrue then
                if (c.get "operation").isSome && (c.get "payload").isSome then
                  some (frFromDict c)
                else none
              else none
          | none => none
        else none
    | none => none
  else none

/-- Observation text recorded for a failed tool result (`error_obs`). -/
def errorObsText (tool : String) (result : JVal) : String :=
  "❌ ERROR: Tool '" ++ tool ++ "' failed!\nError: " ++
    (match result.get "error_message" with
     | some v => pyStr v
     | none => "Unknown error")

/-- The record-and-observe loop over `zip(actions, results)`: append the
`action` and `observation` entries, extend the observation history, and
return immediately with a final response when a `complete_task` action
carries a completed dict result. -/
def recordPairs (cfg : AgentCfg) : RunSt → List (ActionV × JVal) → RunSt × Option RunDone
  | st, [] => (st, none)
  | st, (a, result) :: rest =>
      let st := addMsg st { type := ACTION, tool := some a.tool_name, args := a.tool_args }
      let st :=
        if result.isDict && result.getTruthy "error" then
          let obs := errorObsText a.tool_name result
          { addMsg st { type := OBSERVATION, content := .vstr obs } with
            obsHist := takeLast cfg.pol.observation_window (st.obsHist ++ [obs]) }
        else
          { addMsg st { type := OBSERVATION, content := result } with
            obsHist := takeLast cfg.pol.observation_window (st.obsHist ++ [pyStr result]) }
      if a.tool_name == "complete_task" && result.isDict &&
          ((result.get "completed").getD .vnull).isTrue then
        let fr :=
          if (result.get "operation").isSome && (result.get "payload").isSome then
            frFromDict result
          else
            cfg.conv.convert_get_tool_result_to_message a.tool_name result a.tool_args
        (st, some (handleFinal st fr))
      else
        recordPairs cfg st rest

/-- Result of one loop iteration: the run returns, continues, or crashes
(a `FinalResponse`/unrecognized outcome surviving the termination check
reaches the `for` loop over actions and raises a `TypeError` in the
source). -/
inductive StepRes where
  | done (r : RunDone)
  | next (st : RunSt)
  | crash (st : RunSt)

/-- Normalization `actions = [plan_outcome] if isinstance(plan_outcome, Action) else plan_outcome`,
as a list when the outcome is iterable as actions. -/
def normalizeOutcome : PlanOutcome → Option (List ActionV)
  | .act a => some [a]
  | .acts l => some l
  | _ => none

/-- Tail of an iteration after actions executed and observations recorded
without a `complete_task` return: completion detection (with result
conversion), post-execution stagnation check, checkpoint policy, and the
tool-driven `await_approval` check. -/
def postExec (cfg : AgentCfg) (st : RunSt) (actions : List ActionV)
    (vals : List JVal) : StepRes :=
  let last_result := vals.getLast?
  let lastComplete :=
    match last_result with
    | some r => r.truthy && cfg.pol.is_complete r st.memory cfg.ctx
    | none => false
  if lastComplete then
    match actions.getLast? with
    | some la =>
        let r := last_result.getD .vnull
        if cfg.conv.should_convert_to_display_table la.tool_name then
          .done (handleFinal st
            (cfg.conv.convert_list_tool_result_to_display_table la.tool_name
              (if r.isDict then r else .vdict []) la.tool_args))
        else if cfg.conv.should_convert_to_display_message la.tool_name && r.isDict then
          .done (handleFinal st
            (cfg.conv.convert_get_tool_result_to_message la.tool_name r la.tool_args))
        else
          match cfg.conv.convert_any_tool_result la.tool_name r la.tool_args with
          | some fr => .done (handleFinal st fr)
          | none => .done (createCompletionResponse st "Task completed successfully." last_result)
    | none => .done (createCompletionResponse st "Task completed successfully." last_result)
  else
    match cfg.pol.detect_stagnation st.actionHist st.obsHist cfg.ctx with
    | some reason => .done (createErrorResponse st ("Loop detected: " ++ reason) true)
    | none =>
      let doCheckpoint :=
        match last_result with
        | some r =>
            r.truthy && cfg.pol.should_checkpoint r st.iteration
              { cfg.ctx with
                last_tool := actions.getLast?.map (fun (a : ActionV) => a.tool_name) }
        | none => false
      if doCheckpoint then
        .done (handleCheckpoint st
          (cfg.pol.create_checkpoint_response (last_result.getD .vnull) cfg.ctx))
      else
        match vals.find? (fun (r : JVal) => r.isDict && r.getTruthy "await_approval") with
        | some awaiting => .done (handleApproval st awaiting)
        | none => .next st

/-- Iteration-counter increment at the top of the loop
(`iteration_count += 1`). -/
def bumpIter (st : RunSt) : RunSt :=
  { st with iteration := st.iteration + 1 }

/-- One iteration of the plan/act/observe loop of `Agent.run`. -/
def iterStep (cfg : AgentCfg) (st0 : RunSt) : StepRes :=
  let st := bumpIter st0
  match guardA st with
  | some fr => .done (handleFinal st fr)
  | none =>
    let plan_outcome := cfg.plan cfg.task st.memory
    if cfg.pol.should_terminate st.iteration plan_outcome st.memory cfg.ctx then
      match plan_outcome with
      | .final fr => .done (handleFinal st fr)
      | _ => .done (createCompletionResponse st
          "Task completed (detected by termination policy)." none)
    else
      match normalizeOutcome plan_outcome with
      | none => .crash st
      | some actions =>
        if actions.any (fun a => a.tool_name == "complete_task") &&
            st.memory.any (fun e => e.type == ACTION && e.tool == some "complete_task") then
          .done (createCompletionResponse st "Task already completed. Stopping execution." none)
        else
          match cfg.pol.detect_stagnation st.actionHist st.obsHist cfg.ctx with
          | some reason => .done (createErrorResponse st ("Loop detected: " ++ reason) true)
          | none =>
            let sig := actions.map (fun a => (a.tool_name, canonArgs a.tool_args))
            let st := { st with actionHist := takeLast cfg.pol.action_window (st.actionHist ++ [sig]) }
            let st := { st with events := st.events ++ actions.map (fun a => Ev.action_planned a.tool_name) }
            match actions.find? (fun a => cfg.pol.requires_approval a.tool_name a.tool_args cfg.ctx) with
            | some a =>
                .done (handleApproval st
                  (cfg.pol.create_approval_request a.tool_name a.tool_args cfg.ctx))
            | none =>
                let (results, st) := executeActions cfg st actions
                if results.any ExecResult.isExn then
                  .done (handleExecutionErrors st results)
                else
                  let vals := results.map ExecResult.toVal
                  match recordPairs cfg st (actions.zip vals) with
                  | (_, some r) => .done r
                  | (st, none) => postExec cfg st actions vals

/-- Fuel-indexed unfolding of the `while True` loop (`none` when the fuel
runs out or the iteration crashes). -/
def runLoop (cfg : AgentCfg) : Nat → RunSt → Option RunDone
  | 0, _ => none
  | fuel + 1, st =>
      match iterStep cfg st with
      | .done r => some r
      | .next st' => runLoop cfg fuel st'
      | .crash _ => none

/-- `Agent.run` in planner mode (no script, no suggested plan, no
execution context): publish `agent_start`, append the `task` entry, and
iterate. -/
def runAgent (cfg : AgentCfg) (fuel : Nat) (initMem : List Msg) (store0 : JobStore) :
    Option RunDone :=
  let st0 : RunSt := { memory := initMem, events := [.agent_start], store := store0 }
  let st0 := addMsg st0 { type := TASK, content := .vstr cfg.task }
  runLoop cfg fuel st0

/-! ### Script mode (`Agent._run_script_mode`) -/

/-- One raw script step dict (`raw_step.get(...)` lookups; `none` models a
missing key). -/
structure ScriptStep where
  worker : Option String := none
  worker_key : Option String := none
  tool_name : Option String := none
  tool : Option String := none
  args : Option JVal := none
  name : Option String := none
  description : Option String := none
  notes : Option String := none
deriving Repr

/-- Optional string as a dict value (`None` for a missing field). -/
def optStrToJVal : Option String → JVal
  | some s => .vstr s
  | none => .vnull

/-- Encoding of a script step back into a dict (for the
`script_instruction` memory entry). -/
def ScriptStep.toJVal (s : ScriptStep) : JVal :=
  .vdict ((match s.worker with | some w => [("worker", JVal.vstr w)] | none => []) ++
    (match s.worker_key with | some w => [("worker_key", JVal.vstr w)] | none => []) ++
    (match s.tool_name with | some t => [("tool_name", JVal.vstr t)] | none => []) ++
    (match s.tool with | some t => [("tool", JVal.vstr t)] | none => []) ++
    (match s.args with | some a => [("args", a)] | none => []) ++
    (match s.name with | some n => [("name", JVal.vstr n)] | none => []) ++
    (match s.description with | some d => [("description", JVal.vstr d)] | none => []) ++
    (match s.notes with | some n => [("notes", JVal.vstr n)] | none => []))

/-- `Agent._is_script_step_failure`. -/
def is_script_step_failure : ExecResult → Bool
  | .exn _ => true
  | .val v =>
      v.isDict &&
        (v.getTruthy "error" || ((v.get "success").getD .vnull).isFalse ||
          (let p := (v.get "payload").getD .vnull
           p.isDict && (p.getTruthy "error" || ((p.get "success").getD .vnull).isFalse)))

/-- `raw_step.get("tool_name") or raw_step.get("tool")`. -/
def scriptToolName (s : ScriptStep) : Option String :=
  pyOrOptStr s.tool_name s.tool

/-- `raw_step.get("args") or \x7b\x7d`. -/
def scriptArgs (s : ScriptStep) : JVal :=
  match s.args with
  | some a => if a.truthy then a else .vdict []
  | none => .vdict []

/-- `raw_step.get("name") or raw_step.get("description") or f"Step \x7bidx\x7d"`. -/
def scriptStepName (s : ScriptStep) (idx : Nat) : String :=
  pyOrStr (s.name.getD "")
    (pyOrStr (s.description.getD "") ("Step " ++ toString idx))

/-- Record dict for a script step without a tool name. -/
def scriptMissingRecord (step : ScriptStep) (idx : Nat) : JVal :=
  .vdict [("index", .vint idx), ("name", .vstr (scriptStepName step idx)),
          ("worker", optStrToJVal (pyOrOptStr step.worker step.worker_key)),
          ("tool", .vnull), ("status", .vstr "failed"),
          ("error", .vstr "Missing tool_name in script step")]

/-- Python payload value of a script-step result (`\x7b"error": str(e)\x7d`
for an `Exception`). -/
def scriptResultPayload : ExecResult → JVal
  | .exn m => .vdict [("error", .vstr m)]
  | .val v => v

/-- Record dict for an executed script step. -/
def scriptStepRecord (step : ScriptStep) (idx : Nat) (tn : String)
    (failure : Bool) (result_payload : JVal) : JVal :=
  .vdict [("index", .vint idx), ("name", .vstr (scriptStepName step idx)),
          ("worker", optStrToJVal (pyOrOptStr step.worker step.worker_key)),
          ("tool", .vstr tn), ("notes", optStrToJVal step.notes),
          ("status", .vstr (if failure then "failed" else "success")),
          ("args", scriptArgs step), ("result", result_payload)]

/-- State update of one executed script step: the `action_planned` event,
the `action` entry, the execution effects and the `observation` entry. -/
def scriptStepState (cfg : AgentCfg) (st : RunSt) (step : ScriptStep)
    (idx : Nat) (tn : String) : RunSt :=
  let st := pushEv st (.action_planned tn)
  let st := addMsg st
    { type := ACTION, tool := some tn, step := some (scriptStepName step idx),
      script := true, args := scriptArgs step }
  let st := (executeActions cfg st [⟨tn, scriptArgs step⟩]).2
  addMsg st
    { type := OBSERVATION,
      content := scriptResultPayload (execCore cfg ⟨tn, scriptArgs step⟩).1,
      step := some (scriptStepName step idx), script := true }

/-- The per-step loop of `_run_script_mode` (1-based index): returns the
updated state, the overall status, and the per-step record dicts. Stops
on the first failure or on a step without a tool name. -/
def runScriptSteps (cfg : AgentCfg) (goal_text : String) :
    RunSt → Nat → List ScriptStep → RunSt × String × List JVal
  | st, _, [] => (st, "SUCCESS", [])
  | st, idx, step :: rest =>
      match scriptToolName step with
      | none => (st, "FAILED", [scriptMissingRecord step idx])
      | some tn =>
          if tn == "" then (st, "FAILED", [scriptMissingRecord step idx])
          else
            let result := (execCore cfg ⟨tn, scriptArgs step⟩).1
            let failure := is_script_step_failure result
            let record := scriptStepRecord step idx tn failure (scriptResultPayload result)
            let st := scriptStepState cfg st step idx tn
            if failure then (st, "FAILED", [record])
            else
              let (st', status, recs) := runScriptSteps cfg goal_text st (idx + 1) rest
              (st', status, record :: recs)

/-- `Agent._run_script_mode`: execute the steps in order, aggregate the
per-step records into a `display_message` result with `overall_status`. -/
def runScriptMode (cfg : AgentCfg) (script : List ScriptStep)
    (script_metadata : JVal) (st : RunSt) : RunDone :=
  if script.isEmpty then
    createErrorResponse st "Script execution requested but no steps were provided" false
  else
    let goal_text := pyOrStr (getStrD script_metadata "goal" "") cfg.task
    let (st, overall_status, step_records) := runScriptSteps cfg goal_text st 1 script
    let summary := "Executed " ++ toString step_records.length ++
      " scripted step(s) (" ++ overall_status ++ ")"
    let payload : List (String × JVal) :=
      [("message", .vstr summary), ("overall_status", .vstr overall_status),
       ("script_goal", .vstr goal_text), ("script_steps", .vlist step_records)] ++
      (if ((script_metadata.get "thought").getD .vnull).truthy then
         [("script_thought", (script_metadata.get "thought").getD .vnull)] else []) ++
      (if script_metadata.getTruthy "notes" then
         [("script_notes", (script_metadata.get "notes").getD .vnull)] else [])
    let script_response : JVal :=
      .vdict [("operation", .vstr "display_message"), ("payload", .vdict payload),
              ("human_readable_summary", .vstr summary)]
    createCompletionResponse st summary (some script_response)

/-- Per-step record list of a finished script run (the
`payload["script_steps"]` list of the aggregated result). -/
def scriptStepsOf (r : RunDone) : List JVal :=
  match r.response.payload.get "script_steps" with
  | some (.vlist l) => l
  | _ => []

/-- `Agent.run` in script mode: publish `agent_start`, append the `task`
entry and the `script_instruction` entry, then run the script. -/
def runAgentScript (cfg : AgentCfg) (script : List ScriptStep)
    (script_metadata : JVal) (initMem : List Msg) (store0 : JobStore) : RunDone :=
  let st0 : RunSt := { memory := initMem, events := [.agent_start], store := store0 }
  let st0 := addMsg st0 { type := TASK, content := .vstr cfg.task }
  let st0 :=
    if script.isEmpty then st0
    else addMsg st0
      { type := "script_instruction",
        content := .vdict
          [("metadata", script_metadata),
           ("steps", .vlist (script.map ScriptStep.toJVal))] }
  runScriptMode cfg script script_metadata st0

/-! ### Manager phase sequencing (`core/manager_v2.py`) -/

/-- One phase/step dict of a strategic plan (`phase.get(...)` reads). -/
structure PhaseV where
  worker : String := ""
  goals : String := ""
  name : Option String := none
  notes : Option String := none
  tool_name : Option String := none
  args : JVal := .vdict []
deriving Repr

/-- Events published by the manager (reduced to the claim-relevant
fields). -/
inductive MgrEv where
  | orchestrator_phase_start (idx : Nat)
  | orchestrator_phase_end (idx : Nat) (status : String)
  | manager_step_start (idx : Nat)
  | manager_step_end (idx : Nat) (status : String)
  | delegation_planned (worker : String)
  | delegation_chosen (worker : String)
  | delegation_executed (worker : String)
  | manager_end (status : String)
  | error_ev (msg : String)
deriving Repr, DecidableEq

/-- A recorded `worker.run` invocation: the worker key, the task string it
received, the request-context `strategic_plan` visible at the moment of
the call, and any script / suggested plan found in the tool args. -/
structure WorkerCall where
  worker : String
  task : String
  ctx_plan : Option JVal
  script : Option JVal := none
  suggested_plan : Option JVal := none
deriving Repr

/-- Manager-side state threaded through phase execution. -/
structure MgrSt where
  events : List MgrEv := []
  calls : List WorkerCall := []
  memory : List Msg := []
  globals : List Msg := []
  ctxPlan : Option JVal := none
deriving Repr

/-- Manager configuration: its name (deciding the phase/step branch), the
worker map (Agent-type workers modelled as task → result functions, the
shape exercised by the phase-sequencing scenario) and the full plan
parameter of `_execute_phases_sequentially`. -/
structure ManagerCfg where
  name : String
  workers : List (String × (String → JVal))

/-- `is_manager_steps` from `_execute_phases_sequentially`: the manager
name is truthy and does not contain `"orchestrator"` (case-insensitive). -/
def isManagerSteps (cfg : ManagerCfg) : Bool :=
  cfg.name ≠ "" && !pyIn "orchestrator" (pyLower cfg.name)

/-- `ManagerAgent._format_previous_result`: the summary
(`human_readable_summary or summary`), the operation line, the payload
`message`/`data` line (`json.dumps(data, indent=2)[:500]` for containers,
`str(data)[:500]` otherwise), and the whole-result fallback
`json.dumps(result, indent=2)[:1000]`, stripped. -/
def format_previous_result (result : JVal) : String :=
  if !result.isDict then pyStr result
  else
    let s1 := (result.get "human_readable_summary").getD .vnull
    let s2 := (result.get "summary").getD .vnull
    let formatted :=
      if s1.truthy then pyStr s1 else if s2.truthy then pyStr s2 else ""
    let op := (result.get "operation").getD .vnull
    let formatted := if op.truthy then formatted ++ "\nOperation: " ++ pyStr op else formatted
    let payload := (result.get "payload").getD .vnull
    let formatted :=
      if payload.isDict then
        match payload.get "message" with
        | some m => formatted ++ "\nMessage: " ++ pyStr m
        | none =>
            match payload.get "data" with
            | some d =>
                match d with
                | .vlist _ => formatted ++ "\nData: " ++ pyTake 500 (jsonDumpsIndent 0 d)
                | .vdict _ => formatted ++ "\nData: " ++ pyTake 500 (jsonDumpsIndent 0 d)
                | _ => formatted ++ "\nData: " ++ pyTake 500 (pyStr d)
            | none => formatted
      else formatted
    let formatted :=
      if pyStrip formatted == "" then pyTake 1000 (jsonDumpsIndent 0 result)
      else formatted
    pyStrip formatted

/-- `ManagerAgent._result_status`. -/
def result_status (result : JVal) : String :=
  if result.isDict then
    if getStrD result "operation" "" == "await_approval" then "pending"
    else if result.getTruthy "error" || ((result.get "success").getD .vnull).isFalse ||
        result.getTruthy "error_message" then "failed"
    else
      let p := (result.get "payload").getD .vnull
      if p.isDict && (p.getTruthy "error" || ((p.get "success").getD .vnull).isFalse) then
        "failed"
      else "success"
  else "success"

/-- `ManagerAgent._aggregate_parallel_manager_results`. -/
def aggregateParallelManagerResults
    (workers_run : List String) (results_run : List JVal) : JVal :=
  let pairs := workers_run.zip results_run
  let sections : List JVal := pairs.map (fun p =>
    .vdict [("worker", .vstr p.1),
            ("operation", (p.2.get "operation").getD .vnull),
            ("summary", .vstr (pyOrStr (getStrD p.2 "human_readable_summary" "")
                (getStrD p.2 "summary" ""))),
            ("result", p.2)])
  let worker_summaries := (pairs.filterMap (fun p =>
    let s := pyOrStr (getStrD p.2 "human_readable_summary" "") (getStrD p.2 "summary" "")
    if s ≠ "" then some (s.take 200) else none))
  let summary :=
    if !worker_summaries.isEmpty then
      if worker_summaries.length ≤ 3 then " | ".intercalate worker_summaries
      else " | ".intercalate (worker_summaries.take 2) ++
        " ... and " ++ toString (worker_summaries.length - 2) ++ " more"
    else
      "Executed " ++ toString results_run.length ++ " parallel manager delegations: " ++
        ", ".intercalate workers_run
  .vdict [("operation", .vstr "display_message"),
          ("payload", .vdict [("message", .vstr summary), ("sections", .vlist sections)]),
          ("human_readable_summary", .vstr summary)]

/-- Coercion of the worker return value in
`_delegate_to_worker_parallel`: non-dict results become a
`display_message` wrapper. -/
def coerceWorkerResult (v : JVal) : JVal :=
  if v.isDict then v
  else
    .vdict [("operation", .vstr "display_message"),
            ("payload", .vdict [("message", .vstr (pyStr v))]),
            ("human_readable_summary", .vstr (pyStr v))]

/-- `ManagerAgent._delegate_to_worker_parallel` for an Agent-type worker:
read overrides off the tool args, publish the delegation events, invoke
the worker with the task, record the delegation and observation entries
and the global broadcast. Returns the (coerced) result. -/
def delegateToWorkerParallel (cfg : ManagerCfg) (st : MgrSt)
    (worker_key task : String) (tool_args : JVal) : MgrSt × JVal :=
  let script_steps : Option JVal :=
    match tool_args.get "script" with
    | some (.vlist l) => some (JVal.vlist l)
    | _ => none
  let suggested_plan : Option JVal :=
    match tool_args.get "suggested_plan" with
    | some (.vlist l) => some (JVal.vlist l)
    | _ => none
  let st : MgrSt := { st with events := st.events ++ [.delegation_planned worker_key] }
  match cfg.workers.lookup worker_key with
  | none =>
      (({ st with events := st.events ++ [.error_ev ("Worker not found: " ++ worker_key)] }),
       .vdict [("operation", .vstr "display_message"),
               ("payload", .vdict [("message", .vstr ("Worker not found: " ++ worker_key)),
                                   ("error", .vbool true)]),
               ("human_readable_summary", .vstr ("Worker not found: " ++ worker_key))])
  | some workerFun =>
      let st : MgrSt := { st with events := st.events ++ [.delegation_chosen worker_key] }
      let st : MgrSt := { st with
        calls := st.calls ++
          [{ worker := worker_key, task := task, ctx_plan := st.ctxPlan,
             script := script_steps, suggested_plan := suggested_plan }] }
      let result := coerceWorkerResult (workerFun task)
      let st : MgrSt := { st with
        memory := st.memory ++
          [{ type := "delegation", worker := some worker_key, task := some task },
           { type := OBSERVATION, content := result }] }
      let st : MgrSt := { st with
        globals := st.globals ++
          [{ type := GLOBAL_OBSERVATION, from_worker := some worker_key,
             summary := some (getStrD result "human_readable_summary" ""),
             content := result }] }
      let st : MgrSt := { st with events := st.events ++ [.delegation_executed worker_key] }
      (st, result)

/-- Separator inserted before the previous phase/step output
(`f"\x7bphase_task\x7d\n\n---\n\nPrevious \x7bterm_capitalized\x7d Output:\n..."`). -/
def previousOutputHeader (term_capitalized : String) : String :=
  "\n\n---\n\nPrevious " ++ term_capitalized ++ " Output:\n"

/-- The per-phase body of `_execute_phases_sequentially`, iterating over
the enumerated phases. Returns the state, the workers run with their
results, and — when a worker returned `await_approval` — the bubbled-up
approval result. -/
def execPhasesLoop (cfg : ManagerCfg) (task : String) (tool_args : JVal)
    (strategic_plan : Option JVal) (total : Nat) :
    MgrSt → Nat → Option JVal → List PhaseV →
    MgrSt × List (String × JVal) × Option JVal
  | st, _, _, [] => (st, [], none)
  | st, idx, previous_result, phase :: rest =>
      let phase_worker := pyStrip phase.worker
      if phase_worker == "" || (cfg.workers.lookup phase_worker).isNone then
        execPhasesLoop cfg task tool_args strategic_plan total st (idx + 1) previous_result rest
      else
        let base_task := if pyStrip phase.goals == "" then task else pyStrip phase.goals
        let term_capitalized := if isManagerSteps cfg then "Step" else "Phase"
        let phase_task :=
          match previous_result with
          | some prev =>
              if idx > 0 && prev.truthy then
                base_task ++ previousOutputHeader term_capitalized ++
                  format_previous_result prev
              else base_task
          | none => base_task
        let st : MgrSt :=
          if isManagerSteps cfg then
            { st with events := st.events ++ [.manager_step_start idx] }
          else
            { st with events := st.events ++ [.orchestrator_phase_start idx] }
        let phase_tool_args := if idx == 0 then tool_args else JVal.vdict []
        let st : MgrSt :=
          if isManagerSteps cfg then
            { st with ctxPlan := some (JVal.vdict
                [("primary_worker", .vstr phase_worker),
                 ("task_type", .vstr "execution"),
                 ("phases", .vlist
                    [.vdict [("name", .vstr (phase.name.getD ("Step " ++ toString (idx + 1)))),
                             ("worker", .vstr phase_worker),
                             ("goals", .vstr phase_task),
                             ("notes", .vstr (phase.notes.getD ""))]]),
                 ("rationale", .vstr ("Executing manager step " ++ toString (idx + 1) ++ "/" ++
                    toString total ++ ": " ++ (phase.name.getD "unnamed")))]) }
          else
            { st with ctxPlan := none }
        let (st, phase_result) :=
          delegateToWorkerParallel cfg st phase_worker phase_task phase_tool_args
        let st : MgrSt :=
          { st with ctxPlan :=
              match strategic_plan with
              | some p => if p.truthy then some p else none
              | none => none }
        let status := result_status phase_result
        let st : MgrSt :=
          if isManagerSteps cfg then
            { st with events := st.events ++ [.manager_step_end idx status] }
          else
            { st with events := st.events ++ [.orchestrator_phase_end idx status] }
        if getStrD phase_result "operation" "" == "await_approval" then
          (st, [(phase_worker, phase_result)], some phase_result)
        else
          let (st', runs, approval) :=
            execPhasesLoop cfg task tool_args strategic_plan total st (idx + 1)
              (some phase_result) rest
          (st', (phase_worker, phase_result) :: runs, approval)

/-- `ManagerAgent._execute_phases_sequentially` for a manager with no
synthesizer agent and no synthesis gateway: run every phase in order with
its assigned worker, then aggregate (an `await_approval` result is
returned as-is with `manager_end` status `pending`). -/
def executePhasesSequentially (cfg : ManagerCfg) (phases : List PhaseV)
    (task : String) (tool_args : JVal) (strategic_plan : Option JVal)
    (st : MgrSt) : MgrSt × JVal :=
  let (st, runs, approval) :=
    execPhasesLoop cfg task tool_args strategic_plan phases.length st 0 none phases
  match approval with
  | some approval_result =>
      ({ st with events := st.events ++ [.manager_end "pending"] }, approval_result)
  | none =>
      let aggregated := aggregateParallelManagerResults (runs.map (·.1)) (runs.map (·.2))
      ({ st with events := st.events ++ [.manager_end (inferStatus aggregated)] }, aggregated)

/-! ### Completion monotonicity (claim C3) -/

/-- Is the entry an `action` entry for the `complete_task` tool? -/
def isCompleteTaskAction (m : Msg) : Bool :=
  m.type == ACTION && m.tool == some "complete_task"

/-- Is the entry an `action` entry? -/
def isActionEntry (m : Msg) : Bool := m.type == ACTION

/-- Completion monotonicity of a memory segment: after every
`complete_task` action entry, no further `action` entries occur. -/
def completionMonotone : List Msg → Bool
  | [] => true
  | m :: rest =>
      (!isCompleteTaskAction m || rest.all (fun x => !isActionEntry x)) &&
        completionMonotone rest

/-- The segment contains no `complete_task` action entry. -/
def noCompleteAction (l : List Msg) : Bool :=
  l.all (fun m => !isCompleteTaskAction m)

/-- Well-behaved `complete_task` tool: whenever a tool is registered under
the name `complete_task`, its `execute` never raises and always returns a
dict carrying `completed: True` (as the shipped `CompleteTaskTool`
does). -/
def completeToolOK (cfg : AgentCfg) : Prop :=
  ∀ t, cfg.tools.lookup "complete_task" = some t →
    ∀ kw, ∃ v, t.execute kw = .ok v ∧ v.isDict = true ∧
      ((v.get "completed").getD .vnull).isTrue = true

/-! ### Concrete instances used by counterexamples and witnesses -/

/-- Concrete store for the C5 counterexample: one `user` conversation
turn, no agent or global messages. -/
def c5store : SharedStateStore :=
  { conversation_feeds := [("job", [⟨"user", "hi"⟩])] }

/-- History for the C6 counterexample: a task marker followed by one
action entry. -/
def c6history : List Msg := [{ type := TASK }, { type := ACTION }]

/-- HITL policy for the C1 counterexample: enabled with scope `all`. -/
def c1policy : DefaultHITLPolicy := { enabled := true, scope := "all" }

/-- Job store for the C1 counterexample: the signature of
`add_column` with empty args is recorded for the empty job id. -/
def c1store : JobStore :=
  { executed_actions := [("", actionSignature "add_column" (.vdict []))] }

/-- Policy context for the C1 counterexample: the empty-string job id
(falsy in Python), no approvals. -/
def c1ctx : PolicyCtx := { job_id := some "" }

/-- Termination policy for C7: `max_iterations = 0`, all other settings at
their defaults. -/
def c7policy : DefaultTerminationPolicy := { max_iterations := some 0 }

/-- Trivial policy objects for concrete runs: never terminate, never
detect completion or stagnation, never require approval or checkpoints
(policies are duck-typed strategy objects, so any such record is a valid
instantiation). -/
def trivialPolicies : WorkerPolicies :=
  { should_terminate := fun _ _ _ _ => false,
    is_complete := fun _ _ _ => false,
    detect_stagnation := fun _ _ _ => none,
    requires_approval := fun _ _ _ => false,
    create_approval_request := fun t args _ =>
      DefaultHITLPolicy.create_approval_request {} t args {},
    should_checkpoint := fun _ _ _ => false,
    create_checkpoint_response := fun _ _ =>
      { operation := "display_message", payload := .vdict [],
        human_readable_summary := "" },
    action_window := 5, observation_window := 5 }

/-- Trivial converter instance for concrete runs. -/
def trivialConverters : ResultConverters :=
  { should_convert_to_display_table := fun _ => false,
    should_convert_to_display_message := fun _ => false,
    convert_list_tool_result_to_display_table := fun _ _ _ =>
      { operation := "display_table", payload := .vdict [],
        human_readable_summary := "" },
    convert_get_tool_result_to_message := fun _ r _ => frFromDict r,
    convert_any_tool_result := fun _ _ _ => none }

/-- Tools for the C9 witness: one succeeding tool and one raising tool. -/
def c9tools : List (String × ToolV) :=
  [("ok_tool",
    { name := "ok_tool", validate := fun a => .ok a,
      execute := fun _ => .ok (.vdict [("r", .vstr "1")]) }),
   ("bad_tool",
    { name := "bad_tool", validate := fun a => .ok a,
      execute := fun _ => .error "boom" })]

/-- Agent configuration for the C9 witness. -/
def c9cfg : AgentCfg :=
  { task := "t", tools := c9tools, plan := fun _ _ => .other .vnull,
    pol := trivialPolicies, conv := trivialConverters,
    policyEval := fun _ _ => none, ctx := {} }

/-- Script step A (succeeds) for the C9 witness. -/
def c9A : ScriptStep := { tool_name := some "ok_tool", name := some "A" }

/-- Script step B (fails) for the C9 witness. -/
def c9B : ScriptStep := { tool_name := some "bad_tool", name := some "B" }

/-- Script step C (never reached) for the C9 witness. -/
def c9C : ScriptStep := { tool_name := some "never_tool", name := some "C" }

/-- Agent configuration for the C8 witness: the planner plans one
`add_column` action and the HITL policy requires approval for it. -/
def c8cfg : AgentCfg :=
  { task := "t", tools := [],
    plan := fun _ _ => .act ⟨"add_column", .vdict []⟩,
    pol := { trivialPolicies with
             requires_approval := fun t _ _ => t == "add_column",
             create_approval_request := fun t args c =>
               DefaultHITLPolicy.create_approval_request { enabled := true } t args c },
    conv := trivialConverters, policyEval := fun _ _ => none, ctx := {} }

/-- Initial loop state for the C8 witness (after the `task` entry was
appended). -/
def c8st0 : RunSt :=
  { memory := [{ type := TASK, content := .vstr "t" }], events := [.agent_start] }

/-- Is the event an orchestrator phase start/end event? -/
def isPhaseEv : MgrEv → Bool
  | .orchestrator_phase_start _ => true
  | .orchestrator_phase_end _ _ => true
  | _ => false

/-- Manager configuration for C4: an orchestrator with two workers whose
results carry only a summary. -/
def c4cfg : ManagerCfg :=
  { name := "orchestrator",
    workers :=
      [("w1", fun _ => .vdict [("human_readable_summary", .vstr "R1")]),
       ("w2", fun _ => .vdict [("human_readable_summary", .vstr "R2")])] }

/-- Two-phase strategic plan for C4. -/
def c4phases : List PhaseV :=
  [{ worker := "w1", goals := "G1" }, { worker := "w2", goals := "G2" }]

/-- Agent configuration for the C3 counterexample: `complete_task` is
registered but returns a bare string (`"ok"`, no `completed` flag), the
planner plans the batch `[complete_task, echo]`, and the completion
detector reports completion after the batch. -/
def c3cfg : AgentCfg :=
  { task := "t",
    tools :=
      [("complete_task",
        { name := "complete_task", validate := fun a => .ok a,
          execute := fun _ => .ok (.vstr "ok") }),
       ("echo",
        { name := "echo", validate := fun a => .ok a,
          execute := fun _ => .ok (.vdict [("echoed", .vstr "hi")]) })],
    plan := fun _ _ =>
      .acts [⟨"complete_task", .vdict []⟩, ⟨"echo", .vdict []⟩],
    pol := { trivialPolicies with is_complete := fun _ _ _ => true },
    conv := trivialConverters, policyEval := fun _ _ => none, ctx := {} }

/-- Agent configuration for the C3 witness: a well-behaved
`complete_task` tool (returns `completed: True` with an
`operation`/`payload` structure) and a planner that plans it. -/
def c3wcfg : AgentCfg :=
  { task := "t",
    tools :=
      [("complete_task",
        { name := "complete_task", validate := fun a => .ok a,
          execute := fun _ => .ok (.vdict
            [("completed", .vbool true), ("operation", .vstr "display_message"),
             ("payload", .vdict [("message", .vstr "done")]),
             ("human_readable_summary", .vstr "done")]) })],
    plan := fun _ _ => .act ⟨"complete_task", .vdict []⟩,
    pol := trivialPolicies, conv := trivialConverters,
    policyEval := fun _ _ => none, ctx := {} }

/-- Agent configuration for C2: the planner plans an action naming an
unknown tool (the registry is empty); all policies are permissive. -/
def c2cfg : AgentCfg :=
  { task := "t", tools := [], plan := fun _ _ => .act ⟨"missing_tool", .vdict []⟩,
    pol := trivialPolicies, conv := trivialConverters,
    policyEval := fun _ _ => none, ctx := {} }

/-- Initial loop state for the C2 witness. -/
def c2st0 : RunSt :=
  { memory := [{ type := TASK, content := .vstr "t" }], events := [.agent_start] }

/-- The finished run of the C3 witness configuration (fuel 3, empty
initial memory, empty job store); the fallback is unreachable. -/
def c3wrun : RunDone :=
  (runAgent c3wcfg 3 [] {}).getD
    ⟨{ operation := "", payload := .vnull, human_readable_summary := "" }, {}⟩

/-! ## Theorems settling the claims -/

/-- C10: for every `MessageStoreMemory` instance and message, `add` leaves
the instance (including its backing message store) unchanged and
`get_history` returns the same list before and after the call — `add` is
a silent no-op for this memory variant. -/
theorem C10_add_is_noop (m : MessageStoreMemory) (message : Msg) :
    m.add message = m ∧
    m.message_store = (m.add message).message_store ∧
    (m.add message).get_history = m.get_history :=
  ⟨rfl, rfl, rfl⟩

/-- C5 counterexample: on a namespace whose conversation feed holds one
user turn, `HierarchicalSharedMemory.get_history` returns `[]` while the
claimed composition starts with the translated `user_message` row — the
hierarchical view does not include the conversation feed. -/
theorem C5_counterexample :
    HierarchicalSharedMemory.get_history c5store "job" "mgr" [] = [] ∧
    specHierarchicalHistory c5store "job" "mgr" [] =
      [{ type := USER_MESSAGE, content := .vstr "hi" }] ∧
    HierarchicalSharedMemory.get_history c5store "job" "mgr" [] ≠
      specHierarchicalHistory c5store "job" "mgr" [] := by
  refine ⟨rfl, rfl, ?_⟩
  intro h
  have h1 : HierarchicalSharedMemory.get_history c5store "job" "mgr" [] = [] := rfl
  have h2 : specHierarchicalHistory c5store "job" "mgr" [] =
      [{ type := USER_MESSAGE, content := .vstr "hi" }] := rfl
  rw [h1, h2] at h
  exact List.cons_ne_nil _ _ h.symm

/-- C5 amended: the hierarchical-manager view returns exactly
own feed ++ subordinate feeds ++ global feed; the spec's composition
differs from it precisely by the translated-conversation prefix. -/
theorem C5_amended (s : SharedStateStore) (ns agent_key : String)
    (subordinates : List String) :
    HierarchicalSharedMemory.get_history s ns agent_key subordinates =
      s.list_agent_msgs ns agent_key ++
        s.list_team_msgs ns subordinates ++ s.list_global_updates ns ∧
    specHierarchicalHistory s ns agent_key subordinates =
      convTranslate (s.list_conversation ns) ++
        HierarchicalSharedMemory.get_history s ns agent_key subordinates := by
  constructor
  · rfl
  · simp [specHierarchicalHistory, HierarchicalSharedMemory.get_history,
      List.append_assoc]

/-- C1 counterexample: with HITL enabled, scope `all`, no approval for the
tool, and `has_executed_action` returning true for the signature under
job id `""`, `requires_approval` still returns true — the executed-action
bypass is skipped for a falsy job id, refuting the claim for every job
id. -/
theorem C1_counterexample :
    c1store.has_executed_action "" (actionSignature "add_column" (.vdict [])) = true ∧
    c1policy.enabled = true ∧
    c1ctx.approvals.lookup "add_column" = none ∧
    c1policy.requires_approval c1store "add_column" (.vdict []) c1ctx = true :=
  ⟨rfl, rfl, rfl, rfl⟩

/-- C1 amended: the executed-signature bypass holds for every truthy
(non-empty) job id: if the context's job id is a non-empty string and the
signature is in the job's executed set, `requires_approval` returns
false, whatever the scope, write-tool set and approvals. -/
theorem C1_amended (p : DefaultHITLPolicy) (store : JobStore)
    (tool_name : String) (tool_args : JVal) (context : PolicyCtx) (j : String)
    (hj : context.job_id = some j) (hne : j ≠ "")
    (hex : store.has_executed_action j (actionSignature tool_name tool_args) = true) :
    p.requires_approval store tool_name tool_args context = false := by
  unfold DefaultHITLPolicy.requires_approval
  rw [hj]
  simp [hne, hex]

/-- C1 witness: the amended bypass at a concrete enabled policy, store and
non-empty job id. -/
theorem C1_amended_witness :
    c1policy.requires_approval
      { executed_actions := [("j1", actionSignature "add_column" (.vdict []))] }
      "add_column" (.vdict []) { job_id := some "j1" } = false :=
  C1_amended c1policy
    { executed_actions := [("j1", actionSignature "add_column" (.vdict []))] }
    "add_column" (.vdict []) { job_id := some "j1" } "j1" rfl (by decide) rfl

/-- C7 counterexample: with `max_iterations = 0`, `should_terminate` on
iteration 1 returns false for an `Action` outcome — `0` is falsy in
`if self.max_iterations and ...`, so the cap check is disabled rather
than firing immediately, refuting the claim that every plan outcome
terminates. -/
theorem C7_counterexample :
    c7policy.should_terminate 1 (.act ⟨"echo", .vdict []⟩) [] {} = false :=
  rfl

/-- Idempotence of `List.filter`. -/
theorem filter_idem (p : Msg → Bool) (l : List Msg) :
    List.filter p (List.filter p l) = List.filter p l :=
  List.filter_eq_self.mpr (fun _ ha => List.of_mem_filter ha)

/-- Filtering a suffix of an already-filtered list is the identity. -/
theorem filter_drop_filter (p : Msg → Bool) (k : Nat) (l : List Msg) :
    List.filter p ((List.filter p l).drop k) = (List.filter p l).drop k :=
  List.filter_eq_self.mpr
    (fun _ ha => List.of_mem_filter (List.mem_of_mem_drop ha))

/-- A history without task entries has no last-task marker. -/
theorem find_last_task_marker_eq_none (l : List Msg)
    (hl : ∀ e ∈ l, (e.type == TASK) = false) :
    find_last_task_marker l = none := by
  induction l with
  | nil => rfl
  | cons m rest ih =>
      have hrest : find_last_task_marker rest = none :=
        ih (fun e he => hl e (List.mem_cons_of_mem m he))
      have hm := hl m (List.mem_cons_self m rest)
      simp [find_last_task_marker, hrest, hm]

/-- When there is no last-task marker, the history has no task entries. -/
theorem no_task_of_find_none (l : List Msg)
    (hf : find_last_task_marker l = none) :
    ∀ e ∈ l, (e.type == TASK) = false := by
  induction l with
  | nil => intro e he; cases he
  | cons m rest ih =>
      intro e he
      unfold find_last_task_marker at hf
      cases hr : find_last_task_marker rest with
      | some i => rw [hr] at hf; cases hf
      | none =>
          rw [hr] at hf
          by_cases hm : (m.type == TASK) = true
          · rw [if_pos hm] at hf; cases hf
          · cases he with
            | head => simpa using hm
            | tail _ hmem => exact ih hr e hmem

/-- Entries after the last-task marker are not task entries. -/
theorem no_task_after_marker (l : List Msg) (i : Nat)
    (hf : find_last_task_marker l = some i) :
    ∀ e ∈ l.drop (i + 1), (e.type == TASK) = false := by
  induction l generalizing i with
  | nil => cases hf
  | cons m rest ih =>
      unfold find_last_task_marker at hf
      cases hr : find_last_task_marker rest with
      | some j =>
          rw [hr] at hf
          cases hf
          intro e he
          exact ih j hr e he
      | none =>
          rw [hr] at hf
          by_cases hm : (m.type == TASK) = true
          · rw [if_pos hm] at hf
            cases hf
            intro e he
            exact no_task_of_find_none rest hr e he
          · rw [if_neg hm] at hf; cases hf

/-- The worker filter of a task-free history is empty. -/
theorem worker_filter_eq_nil (l : List Msg) (ctx : FilterCtx)
    (hl : ∀ e ∈ l, (e.type == TASK) = false) :
    WorkerHistoryFilter.filter_for_prompt l ctx = [] := by
  unfold WorkerHistoryFilter.filter_for_prompt
  rw [find_last_task_marker_eq_none l hl]

/-- The worker filter's output never contains a task entry. -/
theorem worker_filter_no_task (h : List Msg) (ctx : FilterCtx) :
    ∀ e ∈ WorkerHistoryFilter.filter_for_prompt h ctx, (e.type == TASK) = false := by
  intro e he
  unfold WorkerHistoryFilter.filter_for_prompt at he
  cases hf : find_last_task_marker h with
  | none => rw [hf] at he; cases he
  | some i =>
      rw [hf] at he
      exact no_task_after_marker h i hf e (List.mem_of_mem_filter he)

/-- `lst[-0:]` keeps the whole list. -/
theorem takeLastPy_zero (l : List Msg) : takeLastPy 0 l = l := by
  simp [takeLastPy]

/-- For a positive bound, `takeLastPy` is a suffix drop. -/
theorem takeLastPy_pos (n : Int) (hn : 0 < n) (l : List Msg) :
    takeLastPy n l = l.drop (l.length - n.toNat) := by
  unfold takeLastPy
  rw [if_pos hn]

/-- A list already within the positive bound is unchanged. -/
theorem takeLastPy_of_le (n : Int) (hn : 0 < n) (l : List Msg)
    (hl : l.length ≤ n.toNat) : takeLastPy n l = l := by
  rw [takeLastPy_pos n hn, Nat.sub_eq_zero_of_le hl, List.drop_zero]

/-- The orchestrator filter is idempotent for a nonnegative effective
turn bound. -/
theorem orchestrator_filter_idem (f : OrchestratorHistoryFilter)
    (history : List Msg) (context : FilterCtx)
    (hmax : 0 ≤ context.max_conversation_turns.getD f.max_conversation_turns) :
    f.filter_for_prompt (f.filter_for_prompt history context) context =
      f.filter_for_prompt history context := by
  unfold OrchestratorHistoryFilter.filter_for_prompt
  set n := context.max_conversation_turns.getD f.max_conversation_turns with hn
  set p := (fun e : Msg => CONVERSATION_TYPES.contains e.type) with hp
  rcases eq_or_lt_of_le hmax with h0 | hpos
  · rw [← h0]
    simp only [takeLastPy_zero]
    exact filter_idem p history
  · rw [takeLastPy_pos n hpos (List.filter p history), filter_drop_filter]
    apply takeLastPy_of_le n hpos
    rw [List.length_drop]
    omega

/-- The manager filter is idempotent. -/
theorem manager_filter_idem (history : List Msg) (context : FilterCtx) :
    ManagerHistoryFilter.filter_for_prompt
        (ManagerHistoryFilter.filter_for_prompt history context) context =
      ManagerHistoryFilter.filter_for_prompt history context := by
  unfold ManagerHistoryFilter.filter_for_prompt
  cases hp : context.previous_phase_id with
  | some p => exact filter_idem _ _
  | none =>
      cases hq : context.phase_id with
      | some pid =>
          by_cases hgt : pid > 0
          · simp only [if_pos hgt]
            exact filter_idem _ _
          · simp only [if_neg hgt]
      | none => rfl

/-- The result component of `executeActions` is the per-action
`execCore` result, independent of the threaded state. -/
theorem executeActions_results (cfg : AgentCfg) (actions : List ActionV) :
    ∀ st, (executeActions cfg st actions).1 =
      actions.map (fun a => (execCore cfg a).1) := by
  induction actions with
  | nil => intro st; rfl
  | cons a rest ih =>
      intro st
      simp only [executeActions, List.map]
      rcases h : execCore cfg a with ⟨r, evs, log, sig⟩
      simp [ih]

/-- `executeActions` never touches the memory feed. -/
theorem executeActions_memory (cfg : AgentCfg) (actions : List ActionV) :
    ∀ st, (executeActions cfg st actions).2.memory = st.memory := by
  induction actions with
  | nil => intro st; rfl
  | cons a rest ih =>
      intro st
      simp only [executeActions]
      rcases h : execCore cfg a with ⟨r, evs, log, sig⟩
      simp [ih]

/-- Execution-effect decomposition of a singleton batch. -/
theorem executeActions_singleton_execLog (cfg : AgentCfg) (st : RunSt) (a : ActionV) :
    (executeActions cfg st [a]).2.execLog =
      st.execLog ++ (execCore cfg a).2.2.1 := by
  simp only [executeActions]

/-- C6 counterexample: on the history `[task, action]` (with any filter
context) the worker filter returns `[action]`, but filtering that output
again returns `[]` — the output carries no task marker, so worker
filtering is not idempotent, refuting the claim for every filter. -/
theorem C6_counterexample :
    WorkerHistoryFilter.filter_for_prompt c6history {} = [{ type := ACTION }] ∧
    WorkerHistoryFilter.filter_for_prompt
        (WorkerHistoryFilter.filter_for_prompt c6history {}) {} = [] ∧
    WorkerHistoryFilter.filter_for_prompt
        (WorkerHistoryFilter.filter_for_prompt c6history {}) {} ≠
      WorkerHistoryFilter.filter_for_prompt c6history {} := by
  refine ⟨rfl, rfl, ?_⟩
  intro h
  have h1 : WorkerHistoryFilter.filter_for_prompt
      (WorkerHistoryFilter.filter_for_prompt c6history {}) {} = ([] : List Msg) := rfl
  have h2 : WorkerHistoryFilter.filter_for_prompt c6history {} =
      [{ type := ACTION }] := rfl
  rw [h1, h2] at h
  exact List.cons_ne_nil _ _ h.symm

/-- C6 amended: filtering an already-filtered history with the same
filter and context is a no-op for the orchestrator filter (whenever the
effective turn bound is nonnegative, e.g. the default 8), the manager
filter and the default filter; the worker filter is the exception — its
output contains no task marker, so re-filtering a nonempty output yields
`[]` instead (it is idempotent only when its output is empty). -/
theorem C6_amended (f : OrchestratorHistoryFilter) (history : List Msg)
    (context : FilterCtx)
    (hmax : 0 ≤ context.max_conversation_turns.getD f.max_conversation_turns) :
    f.filter_for_prompt (f.filter_for_prompt history context) context =
        f.filter_for_prompt history context ∧
    ManagerHistoryFilter.filter_for_prompt
        (ManagerHistoryFilter.filter_for_prompt history context) context =
      ManagerHistoryFilter.filter_for_prompt history context ∧
    DefaultHistoryFilter.filter_for_prompt
        (DefaultHistoryFilter.filter_for_prompt history context) context =
      DefaultHistoryFilter.filter_for_prompt history context ∧
    WorkerHistoryFilter.filter_for_prompt
        (WorkerHistoryFilter.filter_for_prompt history context) context = [] :=
  ⟨orchestrator_filter_idem f history context hmax,
   manager_filter_idem history context, rfl,
   worker_filter_eq_nil _ _ (worker_filter_no_task history context)⟩

/-- C6 witness: the amended statement applied at the concrete history
`[task, action]`, default orchestrator configuration and empty context. -/
theorem C6_amended_witness :
    (0 : Int) ≤ (({} : FilterCtx)).max_conversation_turns.getD
        (({} : OrchestratorHistoryFilter)).max_conversation_turns ∧
    (({} : OrchestratorHistoryFilter)).filter_for_prompt
        ((({} : OrchestratorHistoryFilter)).filter_for_prompt c6history {}) {} =
      (({} : OrchestratorHistoryFilter)).filter_for_prompt c6history {} ∧
    WorkerHistoryFilter.filter_for_prompt
        (WorkerHistoryFilter.filter_for_prompt c6history {}) {} = [] :=
  ⟨by decide, (C6_amended {} c6history {} (by decide)).1,
   (C6_amended {} c6history {} (by decide)).2.2.2⟩

/-- C9: in script mode with steps `[A (succeeds), B (fails), C]`, the
steps execute in order and only A and B are executed (the execution log
contains exactly A's and B's `tool.execute` effects, nothing of C); the
aggregated `display_message` result has `overall_status = "FAILED"`,
exactly two per-step records, and B's record carries status `"failed"`. -/
theorem C9_script_failure_short_circuit (cfg : AgentCfg) (sA sB sC : ScriptStep)
    (md : JVal) (initMem : List Msg) (store0 : JobStore) (tA tB : String)
    (hA : scriptToolName sA = some tA) (hAne : tA ≠ "")
    (hB : scriptToolName sB = some tB) (hBne : tB ≠ "")
    (hAok : is_script_step_failure (execCore cfg ⟨tA, scriptArgs sA⟩).1 = false)
    (hBfail : is_script_step_failure (execCore cfg ⟨tB, scriptArgs sB⟩).1 = true) :
    (runAgentScript cfg [sA, sB, sC] md initMem store0).response.operation =
        "display_message" ∧
    (runAgentScript cfg [sA, sB, sC] md initMem store0).response.payload.get
        "overall_status" = some (.vstr "FAILED") ∧
    scriptStepsOf (runAgentScript cfg [sA, sB, sC] md initMem store0) =
      [scriptStepRecord sA 1 tA false
         (scriptResultPayload (execCore cfg ⟨tA, scriptArgs sA⟩).1),
       scriptStepRecord sB 2 tB true
         (scriptResultPayload (execCore cfg ⟨tB, scriptArgs sB⟩).1)] ∧
    ((scriptStepsOf (runAgentScript cfg [sA, sB, sC] md initMem store0)).getLast?.getD
        .vnull).get "status" = some (.vstr "failed") ∧
    (runAgentScript cfg [sA, sB, sC] md initMem store0).st.execLog =
      (execCore cfg ⟨tA, scriptArgs sA⟩).2.2.1 ++
        (execCore cfg ⟨tB, scriptArgs sB⟩).2.2.1 := by
  have hAne' : (tA == "") = false := beq_eq_false_iff_ne.mpr hAne
  have hBne' : (tB == "") = false := beq_eq_false_iff_ne.mpr hBne
  have hsteps : ∀ st g, runScriptSteps cfg g st 1 [sA, sB, sC] =
      (scriptStepState cfg (scriptStepState cfg st sA 1 tA) sB 2 tB, "FAILED",
       [scriptStepRecord sA 1 tA false
          (scriptResultPayload (execCore cfg ⟨tA, scriptArgs sA⟩).1),
        scriptStepRecord sB 2 tB true
          (scriptResultPayload (execCore cfg ⟨tB, scriptArgs sB⟩).1)]) := by
    intro st g
    simp only [runScriptSteps, hA, hB, hAne', hBne', hAok, hBfail]
    simp
  unfold runAgentScript runScriptMode
  simp only [List.isEmpty_cons, Bool.false_eq_true, if_false, hsteps]
  refine ⟨rfl, ?_, ?_, ?_, ?_⟩
  · simp [createCompletionResponse, handleFinal, getStrD, JVal.get, JVal.truthy,
      JVal.isDict, addMsg, pushEv, List.lookup]
  · simp [scriptStepsOf, createCompletionResponse, handleFinal, getStrD, JVal.get,
      JVal.truthy, JVal.isDict, addMsg, pushEv, List.lookup]
  · simp [scriptStepsOf, createCompletionResponse, handleFinal, getStrD, JVal.get,
      JVal.truthy, JVal.isDict, addMsg, pushEv, List.lookup, scriptStepRecord]
  · simp [createCompletionResponse, handleFinal, addMsg, pushEv, scriptStepState,
      executeActions_singleton_execLog, List.append_assoc]

/-- C9 witness: the short-circuit at a concrete script
`[ok_tool, bad_tool, never_tool]`: FAILED status, two records, and an
execution log showing that only the first two tools ran. -/
theorem C9_witness :
    (runAgentScript c9cfg [c9A, c9B, c9C] (.vdict []) [] {}).response.payload.get
        "overall_status" = some (.vstr "FAILED") ∧
    (scriptStepsOf (runAgentScript c9cfg [c9A, c9B, c9C] (.vdict []) [] {})).length = 2 ∧
    (runAgentScript c9cfg [c9A, c9B, c9C] (.vdict []) [] {}).st.execLog =
      [("ok_tool", .vdict []), ("bad_tool", .vdict [])] := by
  obtain ⟨h1, h2, h3, h4, h5⟩ :=
    C9_script_failure_short_circuit c9cfg c9A c9B c9C (.vdict []) [] {}
      "ok_tool" "bad_tool" rfl (by decide) rfl (by decide) rfl rfl
  refine ⟨h2, ?_, ?_⟩
  · rw [h3]
    rfl
  · rw [h5]
    rfl

/-- C8: in a planner-mode iteration that reaches the HITL check (the
pre-plan guard, termination, re-plan guard and stagnation checks did not
fire) where some planned action requires approval, the run returns the
approval request immediately: the returned response is the converted
approval request of the first such action, memory is unchanged (no
`action`/`observation` entries for the unexecuted batch), nothing was
executed (execution log and job store unchanged), and the events are the
`action_planned` events followed by `agent_end` with status `pending`. -/
theorem C8_hitl_returns_approval (cfg : AgentCfg) (st0 : RunSt)
    (actions : List ActionV) (a : ActionV)
    (hguard : guardA (bumpIter st0) = none)
    (hterm : cfg.pol.should_terminate (bumpIter st0).iteration
        (cfg.plan cfg.task (bumpIter st0).memory) (bumpIter st0).memory cfg.ctx = false)
    (hnorm : normalizeOutcome (cfg.plan cfg.task (bumpIter st0).memory) = some actions)
    (hreplan : (actions.any (fun x => x.tool_name == "complete_task") &&
        (bumpIter st0).memory.any
          (fun e => e.type == ACTION && e.tool == some "complete_task")) = false)
    (hstag : cfg.pol.detect_stagnation (bumpIter st0).actionHist (bumpIter st0).obsHist
        cfg.ctx = none)
    (hfind : actions.find?
        (fun x => cfg.pol.requires_approval x.tool_name x.tool_args cfg.ctx) = some a) :
    match iterStep cfg st0 with
    | .done r =>
        r.response = approvalResponse
          (cfg.pol.create_approval_request a.tool_name a.tool_args cfg.ctx) ∧
        r.st.memory = st0.memory ∧
        r.st.execLog = st0.execLog ∧
        r.st.store = st0.store ∧
        r.st.events = st0.events ++
          actions.map (fun x => Ev.action_planned x.tool_name) ++
          [Ev.agent_end "pending"]
    | _ => False := by
  simp only [iterStep, hguard, hterm, hnorm, hreplan, hstag, hfind,
    Bool.false_eq_true, if_false]
  simp [handleApproval, pushEv, bumpIter, List.append_assoc]

/-- C8 witness: the HITL gate at a concrete configuration whose planner
plans an `add_column` action requiring approval. -/
theorem C8_witness :
    match iterStep c8cfg c8st0 with
    | .done r =>
        r.response = approvalResponse
          (c8cfg.pol.create_approval_request "add_column" (.vdict []) c8cfg.ctx) ∧
        r.st.memory = c8st0.memory ∧
        r.st.execLog = c8st0.execLog ∧
        r.st.store = c8st0.store ∧
        r.st.events = c8st0.events ++
          [ActionV.mk "add_column" (.vdict [])].map
            (fun x => Ev.action_planned x.tool_name) ++
          [Ev.agent_end "pending"]
    | _ => False :=
  C8_hitl_returns_approval c8cfg c8st0 [⟨"add_column", .vdict []⟩]
    ⟨"add_column", .vdict []⟩ rfl rfl rfl rfl rfl rfl

/-- C2 amended: when a planned batch contains an action whose preparation
or policy check fails (tool not found, args failed schema validation, or
central policy denied — exactly the cases where `execute_tool` yields an
`Exception`), the run does NOT record an observation and continue:
it exits immediately through `_handle_execution_errors` with an error
`FinalResponse` (`payload.error = true`, not a stagnation error), two
`error` entries appended to memory (and no `observation` entry for the
batch) and a final `agent_end` event with status `error`. Only errors
raised inside `tool.execute` are converted to error-observations that
let the loop continue. -/
theorem C2_transient_errors_exit_run (cfg : AgentCfg) (st0 : RunSt)
    (actions : List ActionV)
    (hguard : guardA (bumpIter st0) = none)
    (hterm : cfg.pol.should_terminate (bumpIter st0).iteration
        (cfg.plan cfg.task (bumpIter st0).memory) (bumpIter st0).memory cfg.ctx = false)
    (hnorm : normalizeOutcome (cfg.plan cfg.task (bumpIter st0).memory) = some actions)
    (hreplan : (actions.any (fun x => x.tool_name == "complete_task") &&
        (bumpIter st0).memory.any
          (fun e => e.type == ACTION && e.tool == some "complete_task")) = false)
    (hstag : cfg.pol.detect_stagnation (bumpIter st0).actionHist (bumpIter st0).obsHist
        cfg.ctx = none)
    (hfind : actions.find?
        (fun x => cfg.pol.requires_approval x.tool_name x.tool_args cfg.ctx) = none)
    (hexn : (actions.map (fun x => (execCore cfg x).1)).any ExecResult.isExn = true) :
    match iterStep cfg st0 with
    | .done r =>
        r.response.operation = "display_message" ∧
        r.response.payload.get "error" = some (.vbool true) ∧
        r.response.payload.get "stagnation" = some (.vbool false) ∧
        (r.st.memory.drop st0.memory.length).map Msg.type = [ERROR, ERROR] ∧
        r.st.events.getLast? = some (.agent_end "error")
    | _ => False := by
  simp only [iterStep, hguard, hterm, hnorm, hreplan, hstag, hfind,
    Bool.false_eq_true, if_false]
  rw [executeActions_results cfg actions]
  simp only [hexn, if_true]
  simp [handleExecutionErrors, createErrorResponse, addMsg, pushEv,
    executeActions_memory, bumpIter, JVal.get, List.lookup,
    List.append_assoc, List.drop_left]

/-- C2 counterexample: a planner-mode run whose single planned action
names an unknown tool terminates on iteration 1 with an error
`FinalResponse` (`payload.error = true`) and records NO observation
entry — the error is not converted into an observation and the loop does
not continue to a next planner call, and the exit is neither stagnation,
nor the iteration cap, nor an approval. -/
theorem C2_counterexample :
    (runAgent c2cfg 5 [] {}).map (fun r =>
      (r.response.operation,
       r.response.payload.get "error",
       r.response.payload.get "stagnation",
       (r.st.memory.filter (fun m => m.type == OBSERVATION)).length,
       r.st.iteration)) =
      some ("display_message", some (.vbool true), some (.vbool false), 0, 1) := rfl

/-- C2 witness: the amended exit-on-exception behaviour at the concrete
unknown-tool configuration. -/
theorem C2_witness :
    match iterStep c2cfg c2st0 with
    | .done r =>
        r.response.operation = "display_message" ∧
        r.response.payload.get "error" = some (.vbool true) ∧
        r.response.payload.get "stagnation" = some (.vbool false) ∧
        (r.st.memory.drop c2st0.memory.length).map Msg.type = [ERROR, ERROR] ∧
        r.st.events.getLast? = some (.agent_end "error")
    | _ => False :=
  C2_transient_errors_exit_run c2cfg c2st0 [⟨"missing_tool", .vdict []⟩]
    rfl rfl rfl rfl rfl rfl rfl

/-- C4 counterexample: executing the two-phase plan
`[(w1, "G1"), (w2, "G2")]` on an orchestrator manager, the second worker
is invoked with `"G2\n\n---\n\nPrevious Phase Output:\nR1"` — not the
claimed `"G2\n\n--- Previous Phase Output ---\nR1"` — and the
request-context strategic plan during both delegations is `None`, not a
single-step plan. -/
theorem C4_counterexample :
    ((executePhasesSequentially c4cfg c4phases "task" (.vdict []) none {}).1.calls.map
        (fun c => (c.worker, c.task, c.ctx_plan))) =
      [("w1", "G1", none),
       ("w2", "G2\n\n---\n\nPrevious Phase Output:\nR1", none)] ∧
    "G2\n\n---\n\nPrevious Phase Output:\nR1" ≠
      "G2\n\n--- Previous Phase Output ---\nR1" :=
  ⟨rfl, by decide⟩

/-- C4 amended: for an orchestrator manager executing the two-phase plan
`[(W1, G1), (W2, G2)]` with both workers known, `W1.run` receives task
`G1` and `W2.run` receives `G2 ++ "\n\n---\n\nPrevious Phase Output:\n" ++
format(W1_result)` (the separator of the source, not the claimed one);
the request-context strategic plan during each delegation is cleared to
`None` (a single-step plan is built only on the manager-step branch); and
the events `orchestrator_phase_start(0)`, `orchestrator_phase_end(0)`,
`orchestrator_phase_start(1)`, `orchestrator_phase_end(1)` are published
in that order. -/
theorem C4_phase_sequencing (cfg : ManagerCfg) (W1 W2 G1 G2 task : String)
    (f1 f2 : String → JVal) (plan : Option JVal) (st0 : MgrSt)
    (hor : isManagerSteps cfg = false)
    (hW1t : pyStrip W1 = W1) (hW1ne : (W1 == "") = false)
    (hW2t : pyStrip W2 = W2) (hW2ne : (W2 == "") = false)
    (hG1t : pyStrip G1 = G1) (hG1ne : (G1 == "") = false)
    (hG2t : pyStrip G2 = G2) (hG2ne : (G2 == "") = false)
    (hf1 : cfg.workers.lookup W1 = some f1)
    (hf2 : cfg.workers.lookup W2 = some f2)
    (hr1t : (coerceWorkerResult (f1 G1)).truthy = true)
    (hr1op : getStrD (coerceWorkerResult (f1 G1)) "operation" "" ≠
        "await_approval")
    (hr2op : getStrD (coerceWorkerResult
        (f2 (G2 ++ "\n\n---\n\nPrevious Phase Output:\n" ++
          format_previous_result (coerceWorkerResult (f1 G1))) )) "operation" "" ≠
        "await_approval") :
    (executePhasesSequentially cfg
        [{ worker := W1, goals := G1 }, { worker := W2, goals := G2 }]
        task (.vdict []) plan st0).1.calls =
      st0.calls ++
        [{ worker := W1, task := G1, ctx_plan := none },
         { worker := W2,
           task := G2 ++ "\n\n---\n\nPrevious Phase Output:\n" ++
             format_previous_result (coerceWorkerResult (f1 G1)),
           ctx_plan := none }] ∧
    ((executePhasesSequentially cfg
        [{ worker := W1, goals := G1 }, { worker := W2, goals := G2 }]
        task (.vdict []) plan st0).1.events.filter isPhaseEv) =
      st0.events.filter isPhaseEv ++
        [.orchestrator_phase_start 0,
         .orchestrator_phase_end 0 (result_status (coerceWorkerResult (f1 G1))),
         .orchestrator_phase_start 1,
         .orchestrator_phase_end 1 (result_status (coerceWorkerResult
           (f2 (G2 ++ "\n\n---\n\nPrevious Phase Output:\n" ++
             format_previous_result (coerceWorkerResult (f1 G1))))))] := by
  simp only [executePhasesSequentially, execPhasesLoop, hor, hW1t, hW1ne, hW2t,
    hW2ne, hG1t, hG1ne, hG2t, hG2ne, hf1, hf2, hr1t,
    delegateToWorkerParallel, Bool.false_eq_true, if_false, if_true,
    Option.isNone_some, Bool.or_false, Bool.false_or, JVal.get]
  rw [show previousOutputHeader "Phase" = "\n\n---\n\nPrevious Phase Output:\n" from rfl]
  simp [isPhaseEv, List.filter_append, hr1t, hr1op, hr2op, pushEv, addMsg]

/-- C4 witness: the amended phase-sequencing behaviour at the concrete
orchestrator with workers `w1`/`w2` and goals `G1`/`G2`. -/
theorem C4_witness :
    (executePhasesSequentially c4cfg
        [{ worker := "w1", goals := "G1" }, { worker := "w2", goals := "G2" }]
        "task" (.vdict []) none {}).1.calls =
      [{ worker := "w1", task := "G1", ctx_plan := none },
       { worker := "w2",
         task := "G2" ++ "\n\n---\n\nPrevious Phase Output:\n" ++
           format_previous_result (coerceWorkerResult
             ((fun _ => JVal.vdict [("human_readable_summary", JVal.vstr "R1")]) "G1")),
         ctx_plan := none }] ∧
    ((executePhasesSequentially c4cfg
        [{ worker := "w1", goals := "G1" }, { worker := "w2", goals := "G2" }]
        "task" (.vdict []) none {}).1.events.filter isPhaseEv) =
      [.orchestrator_phase_start 0,
       .orchestrator_phase_end 0 (result_status (coerceWorkerResult
         ((fun _ => JVal.vdict [("human_readable_summary", JVal.vstr "R1")]) "G1"))),
       .orchestrator_phase_start 1,
       .orchestrator_phase_end 1 (result_status (coerceWorkerResult
         ((fun _ => JVal.vdict [("human_readable_summary", JVal.vstr "R2")])
           ("G2" ++ "\n\n---\n\nPrevious Phase Output:\n" ++
             format_previous_result (coerceWorkerResult
               ((fun _ => JVal.vdict [("human_readable_summary", JVal.vstr "R1")])
                 "G1"))))))] :=
  C4_phase_sequencing c4cfg "w1" "w2" "G1" "G2" "task"
    (fun _ => JVal.vdict [("human_readable_summary", JVal.vstr "R1")])
    (fun _ => JVal.vdict [("human_readable_summary", JVal.vstr "R2")])
    none {} rfl rfl rfl rfl rfl rfl rfl rfl rfl rfl rfl rfl
    (by decide) (by decide)

/-- C3 counterexample: when the batch `[complete_task, echo]` is planned
and `complete_task` returns a bare string (no `completed: True` dict),
the loop records the `complete_task` action entry and then still appends
the `echo` action entry afterwards — memory ends
`[task, action(complete_task), observation, action(echo), observation,
final]`, violating completion monotonicity. -/
theorem C3_counterexample :
    (runAgent c3cfg 3 [] {}).map (fun r =>
      (completionMonotone r.st.memory,
       r.st.memory.map Msg.type,
       (r.st.memory.get? 1).bind Msg.tool)) =
      some (false, [TASK, ACTION, OBSERVATION, ACTION, OBSERVATION, FINAL],
        some "complete_task") := rfl

/-- Prepending a segment without `complete_task` actions preserves the
completion-monotonicity computation. -/
theorem completionMonotone_append_left (A B : List Msg)
    (hA : noCompleteAction A = true) :
    completionMonotone (A ++ B) = completionMonotone B := by
  induction A with
  | nil => rfl
  | cons m rest ih =>
      simp only [noCompleteAction, List.all_cons, Bool.and_eq_true] at hA
      simp only [List.cons_append, completionMonotone, hA.1, Bool.not_false,
        Bool.true_or, Bool.true_and]
      exact ih (by simp [noCompleteAction, hA.2])

/-- A segment without `complete_task` actions is completion-monotone. -/
theorem completionMonotone_of_noComplete (l : List Msg)
    (hl : noCompleteAction l = true) : completionMonotone l = true := by
  have := completionMonotone_append_left l [] hl
  simpa using this

/-- Extending the appended segment with non-complete entries preserves the
no-complete-action invariant. -/
theorem noComplete_drop_extend (l Δ : List Msg) (n : Nat) (hn : n ≤ l.length)
    (h1 : noCompleteAction (l.drop n) = true) (h2 : noCompleteAction Δ = true) :
    n ≤ (l ++ Δ).length ∧ noCompleteAction ((l ++ Δ).drop n) = true := by
  constructor
  · simp only [List.length_append]
    omega
  · rw [List.drop_append_of_le_length hn]
    simp only [noCompleteAction, List.all_append] at *
    simp [h1, h2]

/-- A completion-monotone extension of a no-complete prefix is
completion-monotone. -/
theorem mono_drop_extend (l Δ : List Msg) (n : Nat) (hn : n ≤ l.length)
    (h1 : noCompleteAction (l.drop n) = true) (h2 : completionMonotone Δ = true) :
    completionMonotone ((l ++ Δ).drop n) = true := by
  rw [List.drop_append_of_le_length hn, completionMonotone_append_left _ _ h1]
  exact h2

/-- Zipping a list with its own image pairs each element with its image. -/
theorem zip_map_snd {α β : Type} (g : α → β) :
    ∀ (l : List α) (p : α × β), p ∈ l.zip (l.map g) → p.2 = g p.1 := by
  intro l
  induction l with
  | nil => intro p hp; cases hp
  | cons a rest ih =>
      intro p hp
      cases hp with
      | head => rfl
      | tail _ h => exact ih p h

/-- A final response appends only a `final` entry, preserving
completion monotonicity of the appended segment. -/
theorem handleFinal_mono (st : RunSt) (fr : FinalResponseV) (n : Nat)
    (hn : n ≤ st.memory.length)
    (hinv : noCompleteAction (st.memory.drop n) = true) :
    completionMonotone (((handleFinal st fr).st.memory).drop n) = true := by
  unfold handleFinal addMsg pushEv
  exact mono_drop_extend _ _ _ hn hinv rfl

/-- A completion response appends only a `final` entry. -/
theorem createCompletionResponse_mono (st : RunSt) (message : String)
    (result : Option JVal) (n : Nat) (hn : n ≤ st.memory.length)
    (hinv : noCompleteAction (st.memory.drop n) = true) :
    completionMonotone
      (((createCompletionResponse st message result).st.memory).drop n) = true := by
  unfold createCompletionResponse
  exact handleFinal_mono st _ n hn hinv

/-- An error response appends only an `error` entry. -/
theorem createErrorResponse_mono (st : RunSt) (message : String)
    (stagnation : Bool) (n : Nat) (hn : n ≤ st.memory.length)
    (hinv : noCompleteAction (st.memory.drop n) = true) :
    completionMonotone
      (((createErrorResponse st message stagnation).st.memory).drop n) = true := by
  unfold createErrorResponse addMsg pushEv
  exact mono_drop_extend _ _ _ hn hinv rfl

/-- The execution-error handler appends only `error` entries. -/
theorem handleExecutionErrors_mono (st : RunSt) (results : List ExecResult)
    (n : Nat) (hn : n ≤ st.memory.length)
    (hinv : noCompleteAction (st.memory.drop n) = true) :
    completionMonotone
      (((handleExecutionErrors st results).st.memory).drop n) = true := by
  unfold handleExecutionErrors createErrorResponse addMsg pushEv
  simp only [List.append_assoc]
  exact mono_drop_extend _ _ _ hn hinv rfl

/-- The approval handler leaves memory unchanged. -/
theorem handleApproval_mono (st : RunSt) (request : JVal) (n : Nat)
    (hinv : noCompleteAction (st.memory.drop n) = true) :
    completionMonotone (((handleApproval st request).st.memory).drop n) = true :=
  completionMonotone_of_noComplete _ hinv

/-- The checkpoint handler leaves memory unchanged. -/
theorem handleCheckpoint_mono (st : RunSt) (fr : FinalResponseV) (n : Nat)
    (hinv : noCompleteAction (st.memory.drop n) = true) :
    completionMonotone (((handleCheckpoint st fr).st.memory).drop n) = true :=
  completionMonotone_of_noComplete _ hinv

/-- Specification of the record-and-observe loop: under a well-behaved
`complete_task` result discipline, either it finishes with no
`complete_task` action appended, or it returns immediately after the
`complete_task` pair, keeping the appended segment completion-monotone. -/
theorem recordPairs_spec (cfg : AgentCfg) :
    ∀ (pairs : List (ActionV × JVal)) (st : RunSt) (n : Nat),
      (∀ p ∈ pairs, p.1.tool_name = "complete_task" →
        p.2.isDict = true ∧ ((p.2.get "completed").getD .vnull).isTrue = true) →
      n ≤ st.memory.length →
      noCompleteAction (st.memory.drop n) = true →
      (match recordPairs cfg st pairs with
       | (st', none) =>
           n ≤ st'.memory.length ∧ noCompleteAction (st'.memory.drop n) = true
       | (_, some r) => completionMonotone (r.st.memory.drop n) = true) := by
  intro pairs
  induction pairs with
  | nil => intro st n hp hn hinv; exact ⟨hn, hinv⟩
  | cons pr rest ih =>
      rcases pr with ⟨a, result⟩
      intro st n hp hn hinv
      by_cases hcond :
          (a.tool_name == "complete_task" && result.isDict &&
            ((result.get "completed").getD JVal.vnull).isTrue) = true
      · simp only [recordPairs, hcond, if_true]
        split
        · simp only [handleFinal, addMsg, pushEv, List.append_assoc,
            List.singleton_append, List.cons_append, List.nil_append]
          apply mono_drop_extend _ _ _ hn hinv
          simp only [completionMonotone, isActionEntry, isCompleteTaskAction]
          simp [OBSERVATION, FINAL, ACTION]
        · simp only [handleFinal, addMsg, pushEv, List.append_assoc,
            List.singleton_append, List.cons_append, List.nil_append]
          apply mono_drop_extend _ _ _ hn hinv
          simp only [completionMonotone, isActionEntry, isCompleteTaskAction]
          simp [OBSERVATION, FINAL, ACTION]
      · have hc1 : (a.tool_name == "complete_task") = false := by
          by_contra hne
          have hc1t : (a.tool_name == "complete_task") = true := by
            revert hne
            cases a.tool_name == "complete_task" <;> simp
          have hdc := hp (a, result) (List.mem_cons_self _ _) (eq_of_beq hc1t)
          simp [hc1t, hdc.1, hdc.2] at hcond
        have hnoΔ : ∀ o : Msg, o.type = OBSERVATION →
            noCompleteAction
              [{ type := ACTION, tool := some a.tool_name, args := a.tool_args }, o] = true := by
          intro o ho
          simp [noCompleteAction, isCompleteTaskAction, hc1, ho, OBSERVATION, ACTION]
        by_cases hobs : (result.isDict && result.getTruthy "error") = true
        · simp only [recordPairs, hcond, hobs, Bool.false_eq_true, if_false, if_true]
          apply ih _ n (fun p hpmem => hp p (List.mem_cons_of_mem _ hpmem))
          · simp only [addMsg, List.length_append]
            omega
          · have h2 := (noComplete_drop_extend st.memory
              [{ type := ACTION, tool := some a.tool_name, args := a.tool_args },
               { type := OBSERVATION, content := .vstr (errorObsText a.tool_name result) }]
              n hn hinv (hnoΔ _ rfl)).2
            simpa [addMsg, List.append_assoc] using h2
        · simp only [recordPairs, hcond, hobs, Bool.false_eq_true, if_false]
          apply ih _ n (fun p hpmem => hp p (List.mem_cons_of_mem _ hpmem))
          · simp only [addMsg, List.length_append]
            omega
          · have h2 := (noComplete_drop_extend st.memory
              [{ type := ACTION, tool := some a.tool_name, args := a.tool_args },
               { type := OBSERVATION, content := result }]
              n hn hinv (hnoΔ _ rfl)).2
            simpa [addMsg, List.append_assoc] using h2

/-- Classification of the post-execution tail: it either continues with
the state unchanged or returns through one of the five handlers applied
to the current state. -/
theorem postExec_cases (cfg : AgentCfg) (st : RunSt) (actions : List ActionV)
    (vals : List JVal) :
    postExec cfg st actions vals = .next st ∨
    (∃ fr, postExec cfg st actions vals = .done (handleFinal st fr)) ∨
    (∃ msg res, postExec cfg st actions vals =
      .done (createCompletionResponse st msg res)) ∨
    (∃ msg b, postExec cfg st actions vals = .done (createErrorResponse st msg b)) ∨
    (∃ req, postExec cfg st actions vals = .done (handleApproval st req)) ∨
    (∃ fr, postExec cfg st actions vals = .done (handleCheckpoint st fr)) := by
  simp only [postExec]
  split
  · split
    · split
      · exact Or.inr (Or.inl ⟨_, rfl⟩)
      · split
        · exact Or.inr (Or.inl ⟨_, rfl⟩)
        · split
          · exact Or.inr (Or.inl ⟨_, rfl⟩)
          · exact Or.inr (Or.inr (Or.inl ⟨_, _, rfl⟩))
    · exact Or.inr (Or.inr (Or.inl ⟨_, _, rfl⟩))
  · split
    · exact Or.inr (Or.inr (Or.inr (Or.inl ⟨_, _, rfl⟩)))
    · split
      · exact Or.inr (Or.inr (Or.inr (Or.inr (Or.inr ⟨_, rfl⟩))))
      · split
        · exact Or.inr (Or.inr (Or.inr (Or.inr (Or.inl ⟨_, rfl⟩))))
        · exact Or.inl rfl

/-- The post-execution tail appends at most a `final`/`error` entry, so
it preserves the invariant. -/
theorem postExec_mono (cfg : AgentCfg) (st : RunSt) (actions : List ActionV)
    (vals : List JVal) (n : Nat) (hn : n ≤ st.memory.length)
    (hinv : noCompleteAction (st.memory.drop n) = true) :
    match postExec cfg st actions vals with
    | .done r => completionMonotone (r.st.memory.drop n) = true
    | .next st' => n ≤ st'.memory.length ∧ noCompleteAction (st'.memory.drop n) = true
    | .crash _ => True := by
  rcases postExec_cases cfg st actions vals with h | ⟨fr, h⟩ | ⟨msg, res, h⟩ |
    ⟨msg, b, h⟩ | ⟨req, h⟩ | ⟨fr, h⟩ <;> rw [h]
  · exact ⟨hn, hinv⟩
  · exact handleFinal_mono _ _ n hn hinv
  · exact createCompletionResponse_mono _ _ _ n hn hinv
  · exact createErrorResponse_mono _ _ _ n hn hinv
  · exact handleApproval_mono _ _ n hinv
  · exact handleCheckpoint_mono _ _ n hinv

/-- Under the well-behaved `complete_task` discipline, a non-exception
execution of a `complete_task` action yields a dict carrying
`completed: True`. -/
theorem execCore_complete (cfg : AgentCfg) (hok : completeToolOK cfg) (a : ActionV)
    (ha : a.tool_name = "complete_task")
    (hne : (execCore cfg a).1.isExn = false) :
    ((execCore cfg a).1.toVal).isDict = true ∧
    ((((execCore cfg a).1.toVal).get "completed").getD .vnull).isTrue = true := by
  rcases hl : cfg.tools.lookup a.tool_name with _ | t
  · simp [execCore, prepareToolCall, hl, ExecResult.isExn] at hne
  · rcases hv : t.validate a.tool_args with ve | kw
    · simp [execCore, prepareToolCall, hl, hv, ExecResult.isExn] at hne
    · rcases hpe : cfg.policyEval a.tool_name kw with _ | deny
      · obtain ⟨v, hexec, hd, hc⟩ := hok t (by rw [← ha]; exact hl) kw
        simp only [execCore, prepareToolCall, hl, hv, hpe, hexec, ExecResult.toVal]
        exact ⟨hd, hc⟩
      · simp [execCore, prepareToolCall, hl, hv, hpe, ExecResult.isExn] at hne

/-- Classification of one loop iteration: it crashes, finishes through
one of the response handlers applied to a state with unchanged memory,
or proceeds through action execution. -/
theorem iterStep_cases (cfg : AgentCfg) (st0 : RunSt) :
    (∃ st : RunSt, st.memory = st0.memory ∧ iterStep cfg st0 = .crash st) ∨
    (∃ (st : RunSt) (fr : FinalResponseV), st.memory = st0.memory ∧
      iterStep cfg st0 = .done (handleFinal st fr)) ∨
    (∃ (st : RunSt) (msg : String) (res : Option JVal), st.memory = st0.memory ∧
      iterStep cfg st0 = .done (createCompletionResponse st msg res)) ∨
    (∃ (st : RunSt) (msg : String) (b : Bool), st.memory = st0.memory ∧
      iterStep cfg st0 = .done (createErrorResponse st msg b)) ∨
    (∃ (st : RunSt) (req : JVal), st.memory = st0.memory ∧
      iterStep cfg st0 = .done (handleApproval st req)) ∨
    (∃ (st : RunSt) (actions : List ActionV) (results : List ExecResult) (st2 : RunSt),
      st.memory = st0.memory ∧
      executeActions cfg st actions = (results, st2) ∧
      results = actions.map (fun a => (execCore cfg a).1) ∧
      iterStep cfg st0 =
        (if results.any ExecResult.isExn then
          .done (handleExecutionErrors st2 results)
        else
          match recordPairs cfg st2 (actions.zip (results.map ExecResult.toVal)) with
          | (_, some r) => .done r
          | (st3, none) => postExec cfg st3 actions (results.map ExecResult.toVal))) := by
  simp only [iterStep, bumpIter]
  split
  · refine Or.inr (Or.inl ⟨_, _, ?_, rfl⟩)
    rfl
  · split
    · split
      · refine Or.inr (Or.inl ⟨_, _, ?_, rfl⟩)
        rfl
      · refine Or.inr (Or.inr (Or.inl ⟨_, _, _, ?_, rfl⟩))
        rfl
    · split
      · refine Or.inl ⟨_, ?_, rfl⟩
        rfl
      · split
        · refine Or.inr (Or.inr (Or.inl ⟨_, _, _, ?_, rfl⟩))
          rfl
        · split
          · refine Or.inr (Or.inr (Or.inr (Or.inl ⟨_, _, _, ?_, rfl⟩)))
            rfl
          · split
            · refine Or.inr (Or.inr (Or.inr (Or.inr (Or.inl ⟨_, _, ?_, rfl⟩))))
              rfl
            · rename_i acts heqN hAC aS heqS xF heqF
              split
              · rename_i hC
                refine Or.inr (Or.inr (Or.inr (Or.inr (Or.inr
                  ⟨{ st0 with
                      iteration := st0.iteration + 1,
                      actionHist := takeLast cfg.pol.action_window
                        (st0.actionHist ++
                          [acts.map (fun a => (a.tool_name, canonArgs a.tool_args))]),
                      events := st0.events ++
                        acts.map (fun a => Ev.action_planned a.tool_name) },
                    acts, _, _, rfl, rfl,
                    executeActions_results cfg _ _, ?he1⟩))))
                case he1 => rw [if_pos hC]
              · rename_i hC
                refine Or.inr (Or.inr (Or.inr (Or.inr (Or.inr
                  ⟨{ st0 with
                      iteration := st0.iteration + 1,
                      actionHist := takeLast cfg.pol.action_window
                        (st0.actionHist ++
                          [acts.map (fun a => (a.tool_name, canonArgs a.tool_args))]),
                      events := st0.events ++
                        acts.map (fun a => Ev.action_planned a.tool_name) },
                    acts, _, _, rfl, rfl,
                    executeActions_results cfg _ _, ?he2⟩))))
                case he2 => rw [if_neg hC]

/-- One loop iteration preserves the completion-monotonicity invariant:
under the well-behaved `complete_task` discipline, a finishing iteration
leaves the dropped segment completion-monotone and a continuing one
appends no `complete_task` action. -/
theorem iterStep_mono (cfg : AgentCfg) (hok : completeToolOK cfg) (st0 : RunSt)
    (n : Nat) (hn : n ≤ st0.memory.length)
    (hinv : noCompleteAction (st0.memory.drop n) = true) :
    match iterStep cfg st0 with
    | .done r => completionMonotone (r.st.memory.drop n) = true
    | .next st' => n ≤ st'.memory.length ∧ noCompleteAction (st'.memory.drop n) = true
    | .crash _ => True := by
  rcases iterStep_cases cfg st0 with
    ⟨st, hm, h⟩ | ⟨st, fr, hm, h⟩ | ⟨st, msg, res, hm, h⟩ | ⟨st, msg, b, hm, h⟩ |
    ⟨st, req, hm, h⟩ | ⟨st, actions, results, st2, hm, hEA, hres, h⟩
  · rw [h]; trivial
  · rw [h]
    exact handleFinal_mono _ _ n (by rw [hm]; exact hn) (by rw [hm]; exact hinv)
  · rw [h]
    exact createCompletionResponse_mono _ _ _ n (by rw [hm]; exact hn)
      (by rw [hm]; exact hinv)
  · rw [h]
    exact createErrorResponse_mono _ _ _ n (by rw [hm]; exact hn)
      (by rw [hm]; exact hinv)
  · rw [h]
    exact handleApproval_mono _ _ n (by rw [hm]; exact hinv)
  · have hmem2 : st2.memory = st.memory := by
      have h2 := executeActions_memory cfg actions st
      rw [hEA] at h2
      exact h2
    have hn2 : n ≤ st2.memory.length := by rw [hmem2, hm]; exact hn
    have hinv2 : noCompleteAction (st2.memory.drop n) = true := by
      rw [hmem2, hm]; exact hinv
    cases hC : results.any ExecResult.isExn with
    | true =>
        have h1 : iterStep cfg st0 = .done (handleExecutionErrors st2 results) := by
          rw [h, if_pos hC]
        rw [h1]
        exact handleExecutionErrors_mono _ _ n hn2 hinv2
    | false =>
        have h1 : iterStep cfg st0 =
            (match recordPairs cfg st2 (actions.zip (results.map ExecResult.toVal)) with
             | (_, some r) => StepRes.done r
             | (st3, none) => postExec cfg st3 actions (results.map ExecResult.toVal)) := by
          rw [h, if_neg (by rw [hC]; exact Bool.false_ne_true)]
        have hpre : ∀ p ∈ actions.zip (results.map ExecResult.toVal),
            p.1.tool_name = "complete_task" →
              p.2.isDict = true ∧
                ((p.2.get "completed").getD JVal.vnull).isTrue = true := by
          rintro ⟨a1, v1⟩ hp hname
          have hmap : results.map ExecResult.toVal =
              actions.map (fun a => ((execCore cfg a).1).toVal) := by
            rw [hres, List.map_map]; rfl
          rw [hmap] at hp
          have hv : v1 = ((execCore cfg a1).1).toVal :=
            zip_map_snd (fun a => ((execCore cfg a).1).toVal) actions ⟨a1, v1⟩ hp
          have hmem1 : a1 ∈ actions := (List.of_mem_zip hp).1
          have hnex : ((execCore cfg a1).1).isExn = false := by
            by_contra hx
            have hx' : ((execCore cfg a1).1).isExn = true := by
              revert hx; cases ((execCore cfg a1).1).isExn <;> simp
            have hin : (execCore cfg a1).1 ∈ results := by
              rw [hres]
              exact List.mem_map_of_mem _ hmem1
            have hany : results.any ExecResult.isExn = true :=
              List.any_eq_true.mpr ⟨_, hin, hx'⟩
            rw [hany] at hC
            exact Bool.noConfusion hC
          have hres1 := execCore_complete cfg hok a1 hname hnex
          show v1.isDict = true ∧
            ((v1.get "completed").getD JVal.vnull).isTrue = true
          rw [hv]
          exact hres1
        have hspec := recordPairs_spec cfg
          (actions.zip (results.map ExecResult.toVal)) st2 n hpre hn2 hinv2
        rcases hRP : recordPairs cfg st2 (actions.zip (results.map ExecResult.toVal))
          with ⟨st3, opt⟩
        rw [hRP] at hspec
        rcases opt with _ | r
        · have h2 : iterStep cfg st0 =
              postExec cfg st3 actions (results.map ExecResult.toVal) := by
            rw [h1, hRP]
          rw [h2]
          obtain ⟨hn3, hinv3⟩ := hspec
          exact postExec_mono cfg st3 actions _ n hn3 hinv3
        · have h2 : iterStep cfg st0 = StepRes.done r := by
            rw [h1, hRP]
          rw [h2]
          exact hspec

/-- Fuel induction over the loop: a run that returns keeps the dropped
memory segment completion-monotone. -/
theorem runLoop_mono (cfg : AgentCfg) (hok : completeToolOK cfg) :
    ∀ (fuel : Nat) (st : RunSt) (n : Nat), n ≤ st.memory.length →
      noCompleteAction (st.memory.drop n) = true →
      ∀ r, runLoop cfg fuel st = some r →
        completionMonotone (r.st.memory.drop n) = true := by
  intro fuel
  induction fuel with
  | zero =>
      intro st n _ _ r hr
      simp only [runLoop] at hr
      exact Option.noConfusion hr
  | succ fuel ih =>
      intro st n hn hinv r hr
      have hstep := iterStep_mono cfg hok st n hn hinv
      rcases hi : iterStep cfg st with r' | st' | stc
      · rw [hi] at hstep
        simp only [runLoop, hi] at hr
        injection hr with hr2
        subst hr2
        exact hstep
      · rw [hi] at hstep
        simp only [runLoop, hi] at hr
        exact ih st' n hstep.1 hstep.2 r hr
      · simp only [runLoop, hi] at hr
        exact Option.noConfusion hr

/-- C3 amended: when every tool registered under the name `complete_task`
always returns a dict carrying `completed: True` (as the shipped
`CompleteTaskTool` does), any run of `Agent.run` in planner mode that
returns leaves its appended memory segment completion-monotone: after a
`complete_task` action entry, no further `action` entries occur. Without
that discipline the property fails (see the counterexample): a
`complete_task` result lacking `completed: True` does not end the run,
and later actions are still appended. -/
theorem C3_amended (cfg : AgentCfg) (hok : completeToolOK cfg) (fuel : Nat)
    (initMem : List Msg) (store : JobStore) (r : RunDone)
    (h : runAgent cfg fuel initMem store = some r) :
    completionMonotone (r.st.memory.drop initMem.length) = true := by
  unfold runAgent at h
  refine runLoop_mono cfg hok fuel _ initMem.length ?_ ?_ r h
  · show initMem.length ≤
      (initMem ++ [({ type := TASK, content := JVal.vstr cfg.task } : Msg)]).length
    simp only [List.length_append]
    omega
  · show noCompleteAction
      ((initMem ++
        [({ type := TASK, content := JVal.vstr cfg.task } : Msg)]).drop
          initMem.length) = true
    rw [List.drop_append_of_le_length (le_refl _), List.drop_length]
    rfl

/-- Witness for the amended C3 on the concrete well-behaved
configuration: the run returns and its appended memory segment is
completion-monotone. -/
theorem C3_amended_witness :
    completionMonotone (c3wrun.st.memory.drop (List.length ([] : List Msg))) = true :=
  C3_amended c3wcfg
    (by
      intro t ht kw
      injection ht with ht2
      subst ht2
      exact ⟨_, rfl, rfl, rfl⟩)
    3 [] {} c3wrun rfl

/-- C7 amended: `max_iterations = 0` disables the iteration cap entirely
(Python falsiness): with the remaining defaults, `should_terminate`
returns false for `Action` and action-list outcomes on every iteration
and history, and returns true for a `FinalResponse` outcome. -/
theorem C7_amended (iteration : Int) (history : List Msg) (context : PolicyCtx) :
    (∀ a : ActionV,
      c7policy.should_terminate iteration (.act a) history context = false) ∧
    (∀ l : List ActionV,
      c7policy.should_terminate iteration (.acts l) history context = false) ∧
    (∀ fr : FinalResponseV,
      c7policy.should_terminate iteration (.final fr) history context = true) := by
  refine ⟨fun a => ?_, fun l => ?_, fun fr => ?_⟩ <;> rfl

end AgentFramework
